import Mathlib

/-!
# Verification of the pintos_filesys buffer cache (src/filesys/cache.c)

This file is a shallow embedding of the buffer cache in `src/filesys/cache.c`
together with theorems settling the specification claims about it.

Modelling conventions, used throughout:

* `block_sector_t` is a 32-bit unsigned integer; sectors are modelled as `Nat`
  and the sentinel `(block_sector_t)-1` as the explicit constant
  `EMPTY_SECTOR = 2^32 - 1`.
* The 2-bit flag field (`enum buf_flag_t`) is modelled as a `Nat` manipulated
  with the same bitwise / arithmetic operations as the C code
  (`&&&`, `|||`, subtraction), under the invariant `flag < 4` where needed.
* A sector-sized data buffer is an opaque value of a type parameter `Block`;
  the code only ever copies or compares whole buffers (`memcpy` of
  `BLOCK_SECTOR_SIZE` bytes), so no byte structure is required.
* The device (`fs_device`) is a function `Nat → Block`; `block_write` is
  `Function.update` at the written sector, and device traffic is additionally
  recorded as explicit lists of writes `(sector, data)` and reads `sector`.
* Pintos locks and condition variables serialize the code; operations that can
  block (`cache_read_acquire`, `cache_write_acquire`) are modelled as partial
  functions returning `none` exactly when the C code would block, and a failed
  `ASSERT` (kernel panic) is likewise modelled as `none`.
* The reader/writer admission protocol of a single entry is modelled as its
  own small transition system (each admission operation is one atomic step,
  since the whole body of each C function runs under `rw_lock`).
-/

namespace PintosCache

/-- `(block_sector_t)-1`: the "empty slot" sentinel written by `cache_init`
and by `cacheEntryFlush` (`c->sec = -1` on a `uint32_t` field). -/
def EMPTY_SECTOR : Nat := 4294967295

theorem EMPTY_SECTOR_eq : EMPTY_SECTOR = 2 ^ 32 - 1 := by decide

/-- `enum buf_flag_t` values from cache.c lines 12-17. -/
def B_NOFLAG : Nat := 0
def B_RECENT : Nat := 1
def B_DIRTY : Nat := 2
def B_ALL : Nat := 3

/-! ## Per-entry reader/writer admission state (cache.c lines 22-35, 56-100)

The fields `reader_count` and `has_writer` of `struct cache_e`, together with
the four admission functions.  Each C function's body runs entirely under the
entry's `rw_lock`, so each is one atomic step on this state.  `cond_wait`
loops are modelled by partiality: the function returns `none` exactly while
its wait condition holds.  The `ASSERT` calls in the release functions are
kernel panics, also modelled as `none`. -/

structure AdmState where
  reader_count : Nat
  has_writer : Bool
  deriving DecidableEq, Repr

/-- `cache_write_acquire` (cache.c 56-67): wait while `has_writer` or
`reader_count > 0`, then set `has_writer = true`. -/
def cache_write_acquire (c : AdmState) : Option AdmState :=
  if c.has_writer = false ∧ c.reader_count = 0 then
    some { c with has_writer := true }
  else none

/-- `cache_write_release` (cache.c 69-78): `ASSERT(c->has_writer)`, then clear
`has_writer` and broadcast. -/
def cache_write_release (c : AdmState) : Option AdmState :=
  if c.has_writer = true then
    some { c with has_writer := false }
  else none

/-- `cache_read_acquire` (cache.c 80-89): wait while `has_writer`, then
increment `reader_count`. -/
def cache_read_acquire (c : AdmState) : Option AdmState :=
  if c.has_writer = false then
    some { c with reader_count := c.reader_count + 1 }
  else none

/-- `cache_read_release` (cache.c 91-100): `ASSERT(c->reader_count > 0)`, then
decrement `reader_count`, signalling if it reaches zero. -/
def cache_read_release (c : AdmState) : Option AdmState :=
  if 0 < c.reader_count then
    some { c with reader_count := c.reader_count - 1 }
  else none

/-- One atomic admission operation on a single cache entry. -/
inductive AdmStep : AdmState → AdmState → Prop
  | write_acquire {s s' : AdmState} : cache_write_acquire s = some s' → AdmStep s s'
  | write_release {s s' : AdmState} : cache_write_release s = some s' → AdmStep s s'
  | read_acquire {s s' : AdmState} : cache_read_acquire s = some s' → AdmStep s s'
  | read_release {s s' : AdmState} : cache_read_release s = some s' → AdmStep s s'

/-- The admission state every entry is given by `cache_init`
(cache.c 142, 144): `reader_count = 0`, `has_writer = false`. -/
def admInit : AdmState := { reader_count := 0, has_writer := false }

/-- States of one entry reachable from initialization by any sequence of
admission operations. -/
def AdmReachable (s : AdmState) : Prop :=
  Relation.ReflTransGen AdmStep admInit s

/-- The number of writers currently holding the entry; `has_writer` is a
single flag guarded by `rw_lock`, so this is `0` or `1` by construction. -/
def admWriterCount (s : AdmState) : Nat :=
  if s.has_writer then 1 else 0

/-! ## A full cache entry and `cacheEntryFlush` (cache.c 207-226)

For the eviction flush we model an entry with all its fields.  The entry's
`entry_lock` is acquired at the start; locks serialize but carry no data, so
they do not appear in the state.  `cache_write_acquire` is the blocking wait
for in-flight readers/writers to drain; the two `ASSERT`s follow it.  -/

structure CacheEntry (Block : Type) where
  reader_count : Nat
  has_writer : Bool
  sec : Nat
  flag : Nat
  data : Block

/-- `cacheEntryFlush` (cache.c 207-226): acquire the entry lock, acquire write
admission (blocking; `none` while readers/writer remain), `ASSERT` that
`reader_count == 0` and `has_writer` (`none` = kernel panic if violated),
write the buffer back to the device at the entry's current sector if dirty,
reset `sec` to the sentinel and `flag` to `B_RECENT`, release write admission.
Returns the new entry, the new device, and the list of device writes issued. -/
def cacheEntryFlush {Block : Type} (e : CacheEntry Block) (dev : Nat → Block) :
    Option (CacheEntry Block × (Nat → Block) × List (Nat × Block)) :=
  match cache_write_acquire ⟨e.reader_count, e.has_writer⟩ with
  | none => none
  | some a =>
    if a.reader_count = 0 ∧ a.has_writer = true then
      match cache_write_release a with
      | none => none
      | some r =>
        some ( { reader_count := r.reader_count, has_writer := r.has_writer,
                 sec := EMPTY_SECTOR, flag := B_RECENT, data := e.data },
               (if e.flag &&& B_DIRTY ≠ 0 then Function.update dev e.sec e.data else dev),
               (if e.flag &&& B_DIRTY ≠ 0 then [(e.sec, e.data)] else []) )
    else none

/-! ## The cache table and the clock evictor (cache.c 40-44, 200-259)

`cache` is a fixed array of `MAX_CACHE_SIZE` entries; the size is a
configuration constant not fixed by cache.c itself, so the model is
parameterized by `N`.  `clock_cache` is the clock cursor, here an index
`Fin N`; `cache_end` is the last slot, so `cacheClockStep` advances the
cursor circularly.

For the sequential (single-thread-at-a-time) semantics of the lookup, load,
eviction and flush paths, the admission fields are quiescent at every step
boundary (each acquire immediately succeeds and each release restores
quiescence), so entries carry only `sec`, `flag` and `data` here; the
admission protocol itself is verified on the dedicated `AdmState` model
above, and `cacheEntryFlush` on the full `CacheEntry`. -/

structure SeqEntry (Block : Type) where
  sec : Nat
  flag : Nat
  data : Block

structure SeqState (Block : Type) (N : Nat) where
  entries : Fin N → SeqEntry Block
  cursor : Fin N

/-- `cacheClockStep` (cache.c 200-205):
`clock_cache = (clock_cache == cache_end) ? cache : clock_cache + 1`. -/
def cacheClockStep {N : Nat} (c : Fin N) : Fin N :=
  if h : c.val = N - 1 then ⟨0, Nat.lt_of_le_of_lt (Nat.zero_le _) c.isLt⟩
  else ⟨c.val + 1, by omega⟩

/-- The effect of `cacheEntryFlush` on a table slot in the sequential model:
write back if dirty, reset `sec` to the sentinel and `flag` to `B_RECENT`.
The buffer contents are not touched. -/
def cacheEntryFlushSeq {Block : Type} {N : Nat} (s : SeqState Block N)
    (dev : Nat → Block) (i : Fin N) :
    SeqState Block N × (Nat → Block) × List (Nat × Block) :=
  let e := s.entries i
  let e' : SeqEntry Block := { e with sec := EMPTY_SECTOR, flag := B_RECENT }
  ( { s with entries := Function.update s.entries i e' },
    if e.flag &&& B_DIRTY ≠ 0 then Function.update dev e.sec e.data else dev,
    if e.flag &&& B_DIRTY ≠ 0 then [(e.sec, e.data)] else [] )

/-- Second-chance demotion of the visited entry `c`
(`clock_cache->flag -= B_RECENT`, cache.c 248-249), with the cursor left on
`c`. -/
def cacheDemote {Block : Type} {N : Nat} (s : SeqState Block N) (c : Fin N) :
    SeqState Block N :=
  let e := s.entries c
  let e2 : SeqEntry Block := { e with flag := e.flag - B_RECENT }
  { entries := Function.update s.entries c e2, cursor := c }

/-- The `do … while(true)` loop of `cacheEvict` (cache.c 228-259), with an
explicit fuel argument standing in for the missing termination measure of the
C loop (`cacheEvict_terminates_two_laps_plus_one` below shows `2*N+1` fuel
always suffices).  Per iteration: advance the cursor; if the visited entry
has `(recent,dirty) = (0,0)` flush and stop; if `try_count >= 1` and the
entry is exactly `B_DIRTY` flush and stop, else (still only when
`try_count >= 1`) clear a set `B_RECENT` bit; finally bump `try_count` when
the cursor is back at its starting position.  Returns the victim index (the
final `clock_cache`), the new table, the new device and the device writes
issued. -/
def cacheEvictLoop {Block : Type} {N : Nat} :
    Nat → SeqState Block N → (Nat → Block) → Nat → Fin N →
    Option (Fin N × SeqState Block N × (Nat → Block) × List (Nat × Block))
  | 0, _, _, _, _ => none
  | fuel + 1, s, dev, try_count, standard =>
    if (s.entries (cacheClockStep s.cursor)).flag &&& B_ALL = 0 then
      some (cacheClockStep s.cursor,
        cacheEntryFlushSeq { s with cursor := cacheClockStep s.cursor } dev
          (cacheClockStep s.cursor))
    else if 1 ≤ try_count ∧ (s.entries (cacheClockStep s.cursor)).flag = B_DIRTY then
      some (cacheClockStep s.cursor,
        cacheEntryFlushSeq { s with cursor := cacheClockStep s.cursor } dev
          (cacheClockStep s.cursor))
    else
      cacheEvictLoop fuel
        (if 1 ≤ try_count ∧ (s.entries (cacheClockStep s.cursor)).flag &&& B_RECENT ≠ 0 then
          cacheDemote s (cacheClockStep s.cursor)
         else { s with cursor := cacheClockStep s.cursor })
        dev
        (if standard = cacheClockStep s.cursor then try_count + 1 else try_count)
        standard

/-- `cacheEvict` (cache.c 228-259): run the clock loop starting with
`try_count = 0` and `standard = clock_cache`. -/
def cacheEvict {Block : Type} {N : Nat} (s : SeqState Block N) (dev : Nat → Block) :
    Option (Fin N × SeqState Block N × (Nat → Block) × List (Nat × Block)) :=
  cacheEvictLoop (2 * N + 1) s dev 0 s.cursor

/-! ## Lookup, load and the public operations (cache.c 166-198, 282-444) -/

/-- `enum write_flag_t` (cache.c 166-170). -/
inductive WriteFlag where
  | W_WRITE
  | W_READ
  | W_NO
  deriving DecidableEq, Repr

/-- The state change a lookup hit applies to the found entry `i`
(cache.c 181-188): `W_WRITE` sets `flag |= B_ALL` (after acquiring write
admission), then `flag |= B_RECENT`. -/
def cacheMarkHit {Block : Type} {N : Nat} (s : SeqState Block N) (i : Fin N)
    (wflag : WriteFlag) : SeqState Block N :=
  let e := s.entries i
  let f1 := match wflag with
    | .W_WRITE => e.flag ||| B_ALL
    | _ => e.flag
  let e' : SeqEntry Block := { e with flag := f1 ||| B_RECENT }
  { s with entries := Function.update s.entries i e' }

/-- `cacheGetIdx` (cache.c 172-198): linear scan for `cache[i].sec == sec`;
on a match, take the entry lock, re-check, acquire the requested admission
(`W_WRITE` additionally sets `flag |= B_ALL`), set `flag |= B_RECENT`, and
return the entry.  In the sequential semantics the unsynchronized scan and
the locked re-check read the same value, so the scan is a single `find?`, and
the admission acquire succeeds immediately (see the model notes above). -/
def cacheGetIdx {Block : Type} {N : Nat} (s : SeqState Block N) (sec : Nat)
    (wflag : WriteFlag) : Option (Fin N × SeqState Block N) :=
  match (List.finRange N).find? (fun i => (s.entries i).sec == sec) with
  | none => none
  | some i => some (i, cacheMarkHit s i wflag)

/-- Installing the requested sector into a freshly evicted slot `v`
(cache.c 301, 306-307 and 339-342, 350-355): set `sec`, read the sector from
the device into the buffer, set `flag |= B_RECENT`; a `W_WRITE` caller then
acquires write admission and sets `flag |= B_ALL` (`W_NO` is the read-ahead
loader, which takes no admission). -/
def cacheInstall {Block : Type} {N : Nat} (s : SeqState Block N) (v : Fin N)
    (sec : Nat) (dev : Nat → Block) (wflag : WriteFlag) : SeqState Block N :=
  let e1 := s.entries v
  let e2 : SeqEntry Block :=
    { e1 with sec := sec, data := dev sec, flag := e1.flag ||| B_RECENT }
  let f3 := match wflag with
    | .W_WRITE => e2.flag ||| B_ALL
    | _ => e2.flag
  let e3 : SeqEntry Block := { e2 with flag := f3 }
  { s with entries := Function.update s.entries v e3 }

/-- `cacheLoadThread` (cache.c 282-322), the read-ahead loader, run to
completion at its spawn point (one valid scheduling of the fire-and-forget
thread).  If the target sector is beyond the device size
(`aheadWrap.sec >= block_size(fs_device)`), signal the semaphore and exit
without touching anything.  Otherwise look the sector up with mode `W_NO`
(on a hit just release the entry lock and signal); on a miss take the
eviction lock (free in the sequential semantics), evict, install the sector,
signal, read the sector from the device into the buffer, set `B_RECENT`, and
release the locks.  The result is
`(state, device, device writes, device reads, signalled)`; `none` only if the
eviction fuel runs out (impossible by `cacheEvictLoop_terminates`). -/
def cacheLoadThread {Block : Type} {N : Nat} (blockSize : Nat)
    (s : SeqState Block N) (dev : Nat → Block) (aheadSec : Nat) :
    Option (SeqState Block N × (Nat → Block) × List (Nat × Block) × List Nat × Bool) :=
  if blockSize ≤ aheadSec then
    some (s, dev, [], [], true)
  else
    match cacheGetIdx s aheadSec .W_NO with
    | some (_, s') => some (s', dev, [], [], true)
    | none =>
      match cacheEvict s dev with
      | none => none
      | some (v, s1, dev1, ws) =>
        some (cacheInstall s1 v aheadSec dev1 .W_NO, dev1, ws, [aheadSec], true)

/-- `cacheTryGetIdx` (cache.c 324-375), the miss-handling loop, sequentially:
try the lookup; on a miss take the eviction lock (free here), evict, install
the requested sector, read it from the device, set `B_RECENT`, release the
locks, acquire the requested admission (`W_WRITE` additionally sets
`flag |= B_ALL`), then spawn the read-ahead loader for `sec + 1` and wait for
its claim signal (the loader is run to completion here, one valid
scheduling).  Returns the resident index and
`(state, device, device writes, device reads)`. -/
def cacheTryGetIdx {Block : Type} {N : Nat} (blockSize : Nat)
    (s : SeqState Block N) (dev : Nat → Block) (sec : Nat) (wflag : WriteFlag) :
    Option (Fin N × SeqState Block N × (Nat → Block) × List (Nat × Block) × List Nat) :=
  match cacheGetIdx s sec wflag with
  | some (i, s') => some (i, s', dev, [], [])
  | none =>
    match cacheEvict s dev with
    | none => none
    | some (v, s1, dev1, ws) =>
      match cacheLoadThread blockSize (cacheInstall s1 v sec dev1 wflag) dev1 (sec + 1) with
      | none => none
      | some (s4, dev4, ws4, rs4, _) => some (v, s4, dev4, ws ++ ws4, sec :: rs4)

/-- The `memcpy` of `cache_write` (cache.c 403): overwrite entry `i`'s
buffer with the caller's block. -/
def cacheWriteData {Block : Type} {N : Nat} (s : SeqState Block N) (i : Fin N)
    (from_ : Block) : SeqState Block N :=
  let e' : SeqEntry Block := { s.entries i with data := from_ }
  { s with entries := Function.update s.entries i e' }

/-- `cache_write` (cache.c 398-405): obtain the entry in write mode (dirty
and recent already set by the admission path), copy the caller's block into
the buffer, release write admission. -/
def cache_write {Block : Type} {N : Nat} (blockSize : Nat)
    (s : SeqState Block N) (dev : Nat → Block) (sec : Nat) (from_ : Block) :
    Option (SeqState Block N × (Nat → Block) × List (Nat × Block) × List Nat) :=
  match cacheTryGetIdx blockSize s dev sec .W_WRITE with
  | none => none
  | some (i, s', dev', ws, rs) =>
    some (cacheWriteData s' i from_, dev', ws, rs)

/-- `cache_read` (cache.c 418-424): obtain the entry in read mode, copy the
buffer out to the caller, release read admission.  Returns the block read
together with the new state and the device traffic. -/
def cache_read {Block : Type} {N : Nat} (blockSize : Nat)
    (s : SeqState Block N) (dev : Nat → Block) (sec : Nat) :
    Option (Block × SeqState Block N × (Nat → Block) × List (Nat × Block) × List Nat) :=
  match cacheTryGetIdx blockSize s dev sec .W_READ with
  | none => none
  | some (i, s', dev', ws, rs) => some ((s'.entries i).data, s', dev', ws, rs)

/-- One iteration of the `cache_flush` loop body (cache.c 437-443): if entry
`i`'s dirty bit is set, write its buffer back to the device at its sector and
clear the dirty bit (`flag -= B_DIRTY`). -/
def cacheFlushStep {Block : Type} {N : Nat}
    (acc : SeqState Block N × (Nat → Block) × List (Nat × Block)) (i : Fin N) :
    SeqState Block N × (Nat → Block) × List (Nat × Block) :=
  let e := acc.1.entries i
  if e.flag &&& B_DIRTY ≠ 0 then
    let e' : SeqEntry Block := { e with flag := e.flag - B_DIRTY }
    ( { acc.1 with entries := Function.update acc.1.entries i e' },
      Function.update acc.2.1 e.sec e.data,
      acc.2.2 ++ [(e.sec, e.data)] )
  else acc

/-- `cache_flush` (cache.c 434-444): for every entry in table order, if its
dirty bit is set, write the buffer back to the device at the entry's sector
and clear the dirty bit.  No admission is taken.  Returns the new state, the
new device and the list of device writes issued. -/
def cache_flush {Block : Type} {N : Nat} (s : SeqState Block N) (dev : Nat → Block) :
    SeqState Block N × (Nat → Block) × List (Nat × Block) :=
  (List.finRange N).foldl cacheFlushStep (s, dev, [])

/-- `cache_init` (cache.c 134-148): every entry gets `sec = -1` (the
sentinel), `flag = B_NOFLAG`, quiescent admission; the clock cursor starts at
slot 0.  `d0` is the arbitrary initial contents of the (uninitialized) static
buffers. -/
def cache_init {Block : Type} {N : Nat} (h : 0 < N) (d0 : Block) : SeqState Block N :=
  { entries := fun _ => { sec := EMPTY_SECTOR, flag := B_NOFLAG, data := d0 },
    cursor := ⟨0, h⟩ }

/-! ## Concurrent miss handling (cache.c 172-198, 228-259, 324-375)

To settle the sector-uniqueness claim we need the concurrent semantics of
`cacheTryGetIdx`: the table scan of `cacheGetIdx` reads `cache[i].sec` one
slot at a time with no lock held, so scan reads of different threads
interleave with installs.  The state below carries the sector-identity part
of the table (the `sec` and `flag` fields, as lists so that states are
executable and decidable), the eviction lock, and one program counter per
thread for two threads running `cacheTryGetIdx(S, …)` on the same sector
`S`.  Each constructor of `RaceStep` is one atomic action of the C code:

* `scanMiss` / `scanHit`: one iteration of the scan loop, one read of
  `cache[i].sec` (lines 177-178).  A hit proceeds to the locked re-check and
  the admission acquire and returns — identity-irrelevant, so the thread is
  simply done.
* `missRetry`: `lock_try_acquire(&eviction_lock)` fails because the other
  thread holds it; `continue` restarts the lookup (lines 329-332).
* `lockAcquire`: `lock_try_acquire` succeeds (line 331).
* `evictInstall`: `cacheEvict()` followed by `item->sec = sec`,
  `block_read`, `item->flag |= B_RECENT` and the entry-lock release (lines
  337-344), bundled as one step: all victim-state writes happen under the
  eviction lock and the victim's entry lock, and no other modelled step runs
  in between in the exhibited interleaving.  Device contents do not matter
  for sector identity and are omitted here.
* `unlock`: `lock_release(&eviction_lock)` (line 345).

The subsequent admission acquire and read-ahead spawn (lines 350-368) do not
change any `sec` field and are not needed to reach the duplicated state, so
a thread's execution is modelled up to the eviction-lock release. -/

/-- The sector-identity part of the cache table, list-represented. -/
structure RaceTable where
  secs : List Nat
  flags : List Nat
  cursor : Nat
  deriving DecidableEq, Repr

/-- `cacheClockStep` on a plain index (cache.c 200-205). -/
def cacheClockStepL (N c : Nat) : Nat :=
  if c = N - 1 then 0 else c + 1

/-- `cacheEntryFlush` restricted to sector identity (cache.c 207-226):
`sec = -1`, `flag = B_RECENT`. -/
def cacheEntryFlushL (t : RaceTable) (c : Nat) : RaceTable :=
  { t with secs := t.secs.set c EMPTY_SECTOR, flags := t.flags.set c B_RECENT }

/-- The `cacheEvict` loop (cache.c 228-259) on the list-represented table;
same algorithm as `cacheEvictLoop`. -/
def cacheEvictLoopL (N : Nat) : Nat → RaceTable → Nat → Nat → Option (Nat × RaceTable)
  | 0, _, _, _ => none
  | fuel + 1, t, try_count, standard =>
    let c := cacheClockStepL N t.cursor
    let f := t.flags.getD c 0
    let t1 : RaceTable := { t with cursor := c }
    if f &&& B_ALL = 0 then
      some (c, cacheEntryFlushL t1 c)
    else if 1 ≤ try_count ∧ f = B_DIRTY then
      some (c, cacheEntryFlushL t1 c)
    else
      let t2 : RaceTable :=
        if 1 ≤ try_count ∧ f &&& B_RECENT ≠ 0 then
          { t1 with flags := t1.flags.set c (f - B_RECENT) }
        else t1
      cacheEvictLoopL N fuel t2 (if standard = c then try_count + 1 else try_count) standard

/-- Program counter of one thread inside `cacheTryGetIdx`:
scanning slot `i`; holding the eviction lock; sector installed (locks still
held); done (returned, or proceeding past the lock release). -/
inductive MissPC where
  | scan (i : Nat)
  | hold
  | installed
  | done
  deriving DecidableEq, Repr

/-- Global state of the concurrent model: the table, the eviction lock
(`none` free, `some t` held by thread `t`), and the two program counters. -/
structure RaceState where
  table : RaceTable
  lockHeld : Option Bool
  pcA : MissPC
  pcB : MissPC
  deriving DecidableEq, Repr

def pcOf (st : RaceState) (t : Bool) : MissPC :=
  if t then st.pcB else st.pcA

def setPc (st : RaceState) (t : Bool) (p : MissPC) : RaceState :=
  if t then { st with pcB := p } else { st with pcA := p }

/-- One atomic step of one of the two threads, both calling
`cacheTryGetIdx` for the same sector `S` on a table of `N` slots. -/
inductive RaceStep (N S : Nat) : RaceState → RaceState → Prop
  | scanMiss (st : RaceState) (t : Bool) (i : Nat) :
      pcOf st t = .scan i → i < N → st.table.secs.getD i 0 ≠ S →
      RaceStep N S st (setPc st t (.scan (i + 1)))
  | scanHit (st : RaceState) (t : Bool) (i : Nat) :
      pcOf st t = .scan i → i < N → st.table.secs.getD i 0 = S →
      RaceStep N S st (setPc st t .done)
  | missRetry (st : RaceState) (t : Bool) :
      pcOf st t = .scan N → st.lockHeld = some (!t) →
      RaceStep N S st (setPc st t (.scan 0))
  | lockAcquire (st : RaceState) (t : Bool) :
      pcOf st t = .scan N → st.lockHeld = none →
      RaceStep N S st (setPc { st with lockHeld := some t } t .hold)
  | evictInstall (st : RaceState) (t : Bool) (v : Nat) (t' : RaceTable) :
      pcOf st t = .hold → st.lockHeld = some t →
      cacheEvictLoopL N (2 * N + 1) st.table 0 st.table.cursor = some (v, t') →
      RaceStep N S st
        (setPc { st with table :=
          { t' with secs := t'.secs.set v S,
                    flags := t'.flags.set v ((t'.flags.getD v 0) ||| B_RECENT) } } t .installed)
  | unlock (st : RaceState) (t : Bool) :
      pcOf st t = .installed → st.lockHeld = some t →
      RaceStep N S (st) (setPc { st with lockHeld := none } t .done)

/-- A 2-slot table caching sectors 10 and 11, both clean, cursor at slot 0,
both threads about to look up sector 5. -/
def raceInit : RaceState :=
  { table := { secs := [10, 11], flags := [0, 0], cursor := 0 },
    lockHeld := none, pcA := .scan 0, pcB := .scan 0 }

/-- The duplicated state: both slots claim sector 5. -/
def raceDup : RaceState :=
  { table := { secs := [5, 5], flags := [1, 1], cursor := 0 },
    lockHeld := none, pcA := .done, pcB := .done }

/-! # Theorems -/

/-! ## C1: reader/writer mutual exclusion -/

/-- Invariant of the admission transition system: a writer excludes all
readers. -/
theorem admReachable_writer_no_readers (s : AdmState) (h : AdmReachable s) :
    s.has_writer = true → s.reader_count = 0 := by
  unfold AdmReachable at h
  induction h with
  | refl => intro _; rfl
  | tail _ hstep ih =>
    rename_i b c _
    cases hstep with
    | write_acquire heq =>
      unfold cache_write_acquire at heq
      split at heq
      · rename_i hc
        cases heq
        intro _
        exact hc.2
      · exact Option.noConfusion heq
    | write_release heq =>
      unfold cache_write_release at heq
      split at heq
      · cases heq
        intro hfalse
        exact absurd hfalse (by simp)
      · exact Option.noConfusion heq
    | read_acquire heq =>
      unfold cache_read_acquire at heq
      split at heq
      · rename_i hc
        cases heq
        intro hfalse
        rw [hc] at hfalse
        exact absurd hfalse (by simp)
      · exact Option.noConfusion heq
    | read_release heq =>
      unfold cache_read_release at heq
      split at heq
      · rename_i hc
        cases heq
        intro hw
        have := ih hw
        omega
      · exact Option.noConfusion heq

/-- C1.  In every admission state of an entry reachable from initialization
by any sequence of atomic `cache_read_acquire` / `cache_read_release` /
`cache_write_acquire` / `cache_write_release` steps, `has_writer` and
`reader_count > 0` never hold simultaneously, and at most one writer holds
the entry (`has_writer` is a single flag, so the writer count is at most 1).
Entries have independent admission state (one `rw_lock`/`rw_cond` each), so
the single-entry system covers every entry. -/
theorem cache_rw_mutual_exclusion (s : AdmState) (h : AdmReachable s) :
    ¬(s.has_writer = true ∧ 0 < s.reader_count) ∧ admWriterCount s ≤ 1 := by
  constructor
  · rintro ⟨hw, hr⟩
    have := admReachable_writer_no_readers s h hw
    omega
  · unfold admWriterCount
    split <;> omega

/-- Witness for C1 at the concrete reachable state after one
`cache_write_acquire`. -/
theorem cache_rw_mutual_exclusion_witness :
    ¬((⟨0, true⟩ : AdmState).has_writer = true ∧ 0 < (⟨0, true⟩ : AdmState).reader_count) ∧
      admWriterCount ⟨0, true⟩ ≤ 1 :=
  cache_rw_mutual_exclusion ⟨0, true⟩
    (Relation.ReflTransGen.single (AdmStep.write_acquire (by decide)))

/-! ## C9: releasing an admission that is not held is a fatal assertion -/

/-- C9.  `cache_write_release` on an entry with `has_writer == false`, and
`cache_read_release` on an entry with `reader_count == 0`, hit the
`ASSERT`s at cache.c lines 73 and 95: a kernel panic (`none`), never a
normal return and never a silent adjustment of the counts. -/
theorem cache_release_unheld_panics (c : AdmState) :
    (c.has_writer = false → cache_write_release c = none) ∧
    (c.reader_count = 0 → cache_read_release c = none) := by
  constructor
  · intro h
    unfold cache_write_release
    rw [h]
    simp
  · intro h
    unfold cache_read_release
    rw [h]
    simp

/-- Witness for C9 at the quiescent entry state. -/
theorem cache_release_unheld_panics_witness :
    cache_write_release ⟨0, false⟩ = none ∧ cache_read_release ⟨0, false⟩ = none :=
  ⟨(cache_release_unheld_panics ⟨0, false⟩).1 rfl,
   (cache_release_unheld_panics ⟨0, false⟩).2 rfl⟩

/-! ## C8: read-ahead beyond the device is a no-op -/

/-- C8.  For a target sector at or beyond the device size, `cacheLoadThread`
signals its completion semaphore and exits without installing an entry,
without issuing any device read or write, and leaving every cache entry (and
the device) unchanged (cache.c 289-294). -/
theorem cacheLoadThread_beyond_device_noop {Block : Type} {N : Nat}
    (blockSize aheadSec : Nat) (s : SeqState Block N) (dev : Nat → Block)
    (h : blockSize ≤ aheadSec) :
    cacheLoadThread blockSize s dev aheadSec = some (s, dev, [], [], true) := by
  unfold cacheLoadThread
  rw [if_pos h]

/-- Witness for C8: a 4-sector device, read-ahead requested for sector 4. -/
theorem cacheLoadThread_beyond_device_noop_witness :
    cacheLoadThread 4 (cache_init (Nat.zero_lt_one) (0 : Nat)) (fun _ => 0) 4 =
      some (cache_init (Nat.zero_lt_one) (0 : Nat), fun _ => (0 : Nat), [], [], true) :=
  cacheLoadThread_beyond_device_noop 4 4 (cache_init Nat.zero_lt_one 0) (fun _ => 0)
    (Nat.le_refl 4)

/-! ## C2: eviction flush of the chosen victim -/

/-- C2.  Flushing a quiescent victim (no in-flight readers or writer — the
state in which the blocking `cache_write_acquire` at cache.c 212 completes):
the post-acquire state satisfies both `ASSERT`s (`reader_count == 0`,
`has_writer`), the buffer is written back to the device at the entry's
current sector exactly when the dirty bit is set, and on return the sector
is the empty sentinel, the flag is `B_RECENT` (recent set, dirty clear),
the buffer is untouched, and write admission has been released. -/
theorem cacheEntryFlush_spec {Block : Type} (e : CacheEntry Block) (dev : Nat → Block)
    (hq : e.reader_count = 0 ∧ e.has_writer = false) :
    (∀ a, cache_write_acquire ⟨e.reader_count, e.has_writer⟩ = some a →
        a.reader_count = 0 ∧ a.has_writer = true) ∧
    ∃ e' dev' ws, cacheEntryFlush e dev = some (e', dev', ws) ∧
      e'.sec = EMPTY_SECTOR ∧ e'.flag = B_RECENT ∧
      e'.has_writer = false ∧ e'.reader_count = 0 ∧ e'.data = e.data ∧
      (e.flag &&& B_DIRTY ≠ 0 →
        dev' = Function.update dev e.sec e.data ∧ ws = [(e.sec, e.data)]) ∧
      (e.flag &&& B_DIRTY = 0 → dev' = dev ∧ ws = []) := by
  obtain ⟨rc, hwr, sec, flag, data⟩ := e
  obtain ⟨h0, hw⟩ := hq
  simp only at h0 hw
  subst h0
  subst hw
  constructor
  · intro a ha
    have h2 : some (⟨0, true⟩ : AdmState) = some a := ha
    cases h2
    exact ⟨rfl, rfl⟩
  · refine ⟨⟨0, false, EMPTY_SECTOR, B_RECENT, data⟩,
      (if flag &&& B_DIRTY ≠ 0 then Function.update dev sec data else dev),
      (if flag &&& B_DIRTY ≠ 0 then [(sec, data)] else []), ?_, rfl, rfl, rfl, rfl, rfl,
      ?_, ?_⟩
    · rfl
    · intro hd
      rw [if_pos hd, if_pos hd]
      exact ⟨rfl, rfl⟩
    · intro hd
      have hnd : ¬(flag &&& B_DIRTY ≠ 0) := fun h => h hd
      rw [if_neg hnd, if_neg hnd]
      exact ⟨rfl, rfl⟩

/-- Witness for C2: a dirty quiescent entry over a one-value device. -/
theorem cacheEntryFlush_spec_witness :
    (∀ a, cache_write_acquire ⟨(⟨0, false, 7, 3, 99⟩ : CacheEntry Nat).reader_count,
          (⟨0, false, 7, 3, 99⟩ : CacheEntry Nat).has_writer⟩ = some a →
        a.reader_count = 0 ∧ a.has_writer = true) ∧
    ∃ e' dev' ws, cacheEntryFlush (⟨0, false, 7, 3, 99⟩ : CacheEntry Nat) (fun _ => 0) =
        some (e', dev', ws) ∧
      e'.sec = EMPTY_SECTOR ∧ e'.flag = B_RECENT ∧
      e'.has_writer = false ∧ e'.reader_count = 0 ∧
      e'.data = (⟨0, false, 7, 3, 99⟩ : CacheEntry Nat).data ∧
      ((⟨0, false, 7, 3, 99⟩ : CacheEntry Nat).flag &&& B_DIRTY ≠ 0 →
        dev' = Function.update (fun _ => 0) 7 99 ∧ ws = [(7, 99)]) ∧
      ((⟨0, false, 7, 3, 99⟩ : CacheEntry Nat).flag &&& B_DIRTY = 0 →
        dev' = (fun _ => 0) ∧ ws = []) :=
  cacheEntryFlush_spec ⟨0, false, 7, 3, 99⟩ (fun _ => 0) ⟨rfl, rfl⟩

/-! ## C5: the sector-duplication race

Interleaving exhibited: thread B's unsynchronized scan reads both slots
(misses) before thread A installs; A then takes the eviction lock, evicts
slot 1 and installs sector 5 there, and releases the lock; B, whose lookup
already failed, now wins the eviction lock, evicts slot 0 and installs
sector 5 there too.  Both slots then hold sector 5 — the check-then-act gap
cache.c's spec flags in §9. -/

/-- C5 is violated by the code: from a well-formed 2-slot state, a real
interleaving of two `cacheTryGetIdx(5, …)` calls reaches a state in which
two distinct entries both hold the non-sentinel sector 5. -/
theorem sector_duplication_reachable :
    Relation.ReflTransGen (RaceStep 2 5) raceInit raceDup ∧
    raceDup.table.secs.getD 0 0 = 5 ∧ raceDup.table.secs.getD 1 0 = 5 ∧
    (5 : Nat) ≠ EMPTY_SECTOR := by
  refine ⟨?_, by decide, by decide, by decide⟩
  have s1 : RaceStep 2 5 raceInit
      ⟨⟨[10, 11], [0, 0], 0⟩, none, .scan 0, .scan 1⟩ :=
    RaceStep.scanMiss _ true 0 rfl (by decide) (by decide)
  have s2 : RaceStep 2 5
      ⟨⟨[10, 11], [0, 0], 0⟩, none, .scan 0, .scan 1⟩
      ⟨⟨[10, 11], [0, 0], 0⟩, none, .scan 0, .scan 2⟩ :=
    RaceStep.scanMiss _ true 1 rfl (by decide) (by decide)
  have s3 : RaceStep 2 5
      ⟨⟨[10, 11], [0, 0], 0⟩, none, .scan 0, .scan 2⟩
      ⟨⟨[10, 11], [0, 0], 0⟩, none, .scan 1, .scan 2⟩ :=
    RaceStep.scanMiss _ false 0 rfl (by decide) (by decide)
  have s4 : RaceStep 2 5
      ⟨⟨[10, 11], [0, 0], 0⟩, none, .scan 1, .scan 2⟩
      ⟨⟨[10, 11], [0, 0], 0⟩, none, .scan 2, .scan 2⟩ :=
    RaceStep.scanMiss _ false 1 rfl (by decide) (by decide)
  have s5 : RaceStep 2 5
      ⟨⟨[10, 11], [0, 0], 0⟩, none, .scan 2, .scan 2⟩
      ⟨⟨[10, 11], [0, 0], 0⟩, some false, .hold, .scan 2⟩ :=
    RaceStep.lockAcquire _ false rfl rfl
  have s6 : RaceStep 2 5
      ⟨⟨[10, 11], [0, 0], 0⟩, some false, .hold, .scan 2⟩
      ⟨⟨[10, 5], [0, 1], 1⟩, some false, .installed, .scan 2⟩ :=
    RaceStep.evictInstall _ false 1 ⟨[10, EMPTY_SECTOR], [0, 1], 1⟩ rfl rfl (by decide)
  have s7 : RaceStep 2 5
      ⟨⟨[10, 5], [0, 1], 1⟩, some false, .installed, .scan 2⟩
      ⟨⟨[10, 5], [0, 1], 1⟩, none, .done, .scan 2⟩ :=
    RaceStep.unlock _ false rfl rfl
  have s8 : RaceStep 2 5
      ⟨⟨[10, 5], [0, 1], 1⟩, none, .done, .scan 2⟩
      ⟨⟨[10, 5], [0, 1], 1⟩, some true, .done, .hold⟩ :=
    RaceStep.lockAcquire _ true rfl rfl
  have s9 : RaceStep 2 5
      ⟨⟨[10, 5], [0, 1], 1⟩, some true, .done, .hold⟩
      ⟨⟨[5, 5], [1, 1], 0⟩, some true, .done, .installed⟩ :=
    RaceStep.evictInstall _ true 0 ⟨[EMPTY_SECTOR, 5], [1, 1], 0⟩ rfl rfl (by decide)
  have s10 : RaceStep 2 5
      ⟨⟨[5, 5], [1, 1], 0⟩, some true, .done, .installed⟩ raceDup :=
    RaceStep.unlock _ true rfl rfl
  exact Relation.ReflTransGen.tail
    (Relation.ReflTransGen.tail
      (Relation.ReflTransGen.tail
        (Relation.ReflTransGen.tail
          (Relation.ReflTransGen.tail
            (Relation.ReflTransGen.tail
              (Relation.ReflTransGen.tail
                (Relation.ReflTransGen.tail
                  (Relation.ReflTransGen.tail
                    (Relation.ReflTransGen.single s1) s2) s3) s4) s5) s6) s7) s8) s9) s10

/-! ## Clock-cursor arithmetic -/

theorem cacheClockStep_val {N : Nat} (c : Fin N) :
    (cacheClockStep c).val = (c.val + 1) % N := by
  unfold cacheClockStep
  split
  · rename_i h
    have hN : 0 < N := Nat.lt_of_le_of_lt (Nat.zero_le _) c.isLt
    have h1 : c.val + 1 = N := by omega
    simp [h1]
  · rename_i h
    have : c.val + 1 < N := by have := c.isLt; omega
    simp [Nat.mod_eq_of_lt this]

theorem cacheClockStep_iterate {N : Nat} (c : Fin N) (k : Nat) :
    (cacheClockStep^[k] c).val = (c.val + k) % N := by
  induction k with
  | zero => simp [Nat.mod_eq_of_lt c.isLt]
  | succ k ih =>
    rw [Function.iterate_succ_apply', cacheClockStep_val, ih, Nat.mod_add_mod,
      Nat.add_assoc]

theorem cacheClockStep_iterate_cycle {N : Nat} (c : Fin N) :
    cacheClockStep^[N] c = c := by
  apply Fin.ext
  rw [cacheClockStep_iterate, Nat.add_mod_right, Nat.mod_eq_of_lt c.isLt]

theorem cacheClockStep_iterate_ne {N : Nat} (c : Fin N) (j : Nat)
    (h1 : 1 ≤ j) (h2 : j < N) : cacheClockStep^[j] c ≠ c := by
  intro h
  have hv : (c.val + j) % N = c.val := by
    rw [← cacheClockStep_iterate, h]
  rcases Nat.lt_or_ge (c.val + j) N with hlt | hge
  · rw [Nat.mod_eq_of_lt hlt] at hv
    omega
  · have hlt2 : c.val + j - N < N := by have := c.isLt; omega
    have : (c.val + j) % N = c.val + j - N := by
      rw [Nat.mod_eq_sub_mod hge, Nat.mod_eq_of_lt hlt2]
    omega

theorem cacheClockStep_ne_self {N : Nat} (c : Fin N) (hN : 2 ≤ N) :
    cacheClockStep c ≠ c := by
  have := cacheClockStep_iterate_ne c 1 (Nat.le_refl 1) hN
  rwa [Function.iterate_one] at this

/-! ## C3: second-chance demotion and the first lap -/

/-- C3 as stated is violated by the code: in a 2-slot table with entry 0 at
`(recent=0,dirty=0)` and entry 1 at `(recent=1,dirty=0)`, cursor at slot 0,
the evictor first visits entry 1 (recent set, not evicted), wraps, and
evicts entry 0 — all within its first lap.  Afterwards entry 1 still has
`flag = B_RECENT`: the pass over the `recent=1` entry did *not* clear the
bit, because `flag -= B_RECENT` (cache.c 248-249) is guarded by
`try_count >= 1` (cache.c 243) and so never runs during the first lap. -/
theorem cacheEvict_first_lap_no_demotion_cex :
    (cacheEvict (⟨![⟨10, 0, ()⟩, ⟨11, 1, ()⟩], 0⟩ : SeqState Unit 2) (fun _ => ())).map
        (fun r => (r.1, (r.2.1.entries 0).sec, (r.2.1.entries 1).flag)) =
      some (0, EMPTY_SECTOR, B_RECENT) := by
  decide

/-- C3 amended: on an iteration of the `cacheEvict` loop that does not evict
the visited entry, second-chance demotion (clearing a set `B_RECENT` bit,
preserving the dirty bit) is applied exactly when `try_count ≥ 1`; on
first-lap iterations (`try_count = 0`) the table's flags are left completely
unchanged. -/
theorem cacheEvict_demotion_only_after_first_lap {Block : Type} {N : Nat}
    (fuel try_count : Nat) (s : SeqState Block N) (dev : Nat → Block)
    (standard : Fin N)
    (hne : (s.entries (cacheClockStep s.cursor)).flag &&& B_ALL ≠ 0)
    (hnd : ¬(1 ≤ try_count ∧ (s.entries (cacheClockStep s.cursor)).flag = B_DIRTY))
    (hf4 : (s.entries (cacheClockStep s.cursor)).flag < 4) :
    ∃ s2 : SeqState Block N,
      cacheEvictLoop (fuel + 1) s dev try_count standard =
        cacheEvictLoop fuel s2 dev
          (if standard = cacheClockStep s.cursor then try_count + 1 else try_count)
          standard ∧
      s2.cursor = cacheClockStep s.cursor ∧
      (∀ j, j ≠ cacheClockStep s.cursor → s2.entries j = s.entries j) ∧
      (1 ≤ try_count → (s.entries (cacheClockStep s.cursor)).flag &&& B_RECENT ≠ 0 →
        (s2.entries (cacheClockStep s.cursor)).flag &&& B_RECENT = 0 ∧
        (s2.entries (cacheClockStep s.cursor)).flag &&& B_DIRTY =
          (s.entries (cacheClockStep s.cursor)).flag &&& B_DIRTY) ∧
      (try_count = 0 → s2.entries = s.entries) := by
  rw [cacheEvictLoop]
  simp only [if_neg hne, if_neg hnd]
  by_cases hdem : 1 ≤ try_count ∧
      (s.entries (cacheClockStep s.cursor)).flag &&& B_RECENT ≠ 0
  · rw [if_pos hdem]
    refine ⟨_, rfl, rfl, ?_, ?_, ?_⟩
    · intro j hj
      exact Function.update_noteq hj _ _
    · intro _ hr
      simp only [cacheDemote]
      rw [Function.update_same]
      set f := (s.entries (cacheClockStep s.cursor)).flag with hf
      clear_value f
      interval_cases f
      · exact absurd (by decide) hr
      · exact ⟨show (1 - B_RECENT) &&& B_RECENT = 0 by decide,
               show (1 - B_RECENT) &&& B_DIRTY = 1 &&& B_DIRTY by decide⟩
      · exact absurd (by decide) hr
      · exact ⟨show (3 - B_RECENT) &&& B_RECENT = 0 by decide,
               show (3 - B_RECENT) &&& B_DIRTY = 3 &&& B_DIRTY by decide⟩
    · intro h0
      omega
  · rw [if_neg hdem]
    refine ⟨_, rfl, rfl, fun j _ => rfl, ?_, fun _ => rfl⟩
    intro h1 hr
    exact absurd ⟨h1, hr⟩ hdem

/-! ## C4: clock-evictor termination -/

theorem cacheEntryFlushSeq_entries_ne {Block : Type} {N : Nat}
    (s : SeqState Block N) (dev : Nat → Block) (i j : Fin N) (h : j ≠ i) :
    (cacheEntryFlushSeq s dev i).1.entries j = s.entries j := by
  simp only [cacheEntryFlushSeq]
  exact Function.update_noteq h _ _

theorem cacheEntryFlushSeq_entries_same {Block : Type} {N : Nat}
    (s : SeqState Block N) (dev : Nat → Block) (i : Fin N) :
    (cacheEntryFlushSeq s dev i).1.entries i =
      { sec := EMPTY_SECTOR, flag := B_RECENT, data := (s.entries i).data } := by
  simp only [cacheEntryFlushSeq]
  rw [Function.update_same]

theorem cacheDemote_preserves {Block : Type} {N : Nat}
    (s : SeqState Block N) (c j : Fin N) :
    ((cacheDemote s c).entries j).sec = (s.entries j).sec ∧
    ((cacheDemote s c).entries j).data = (s.entries j).data := by
  by_cases h : j = c
  · subst h
    simp only [cacheDemote]
    rw [Function.update_same]
    exact ⟨rfl, rfl⟩
  · simp only [cacheDemote]
    rw [Function.update_noteq h]
    exact ⟨rfl, rfl⟩

theorem cacheDemote_flag_lt {Block : Type} {N : Nat}
    (s : SeqState Block N) (c : Fin N) (hf4 : ∀ i, (s.entries i).flag < 4) (j : Fin N) :
    ((cacheDemote s c).entries j).flag < 4 := by
  by_cases h : j = c
  · subst h
    simp only [cacheDemote]
    rw [Function.update_same]
    have := hf4 j
    simp only []
    omega
  · simp only [cacheDemote]
    rw [Function.update_noteq h]
    exact hf4 j

/-- Case analysis of a demotable flag value: any 2-bit flag that is neither
`B_NOFLAG` nor exactly `B_DIRTY` has its recent bit set, and loses it (only)
on demotion. -/
theorem flag_demotion_cases (f : Nat) (h4 : f < 4) (h0 : f &&& B_ALL ≠ 0)
    (h2 : f ≠ B_DIRTY) :
    f &&& B_RECENT ≠ 0 ∧ (f - B_RECENT) &&& B_RECENT = 0 ∧ f - B_RECENT < 4 := by
  interval_cases f
  · exact absurd (by decide) h0
  · exact ⟨by decide, by decide, by decide⟩
  · exact absurd rfl h2
  · exact ⟨by decide, by decide, by decide⟩

/-- The two eviction branches of the loop body: if the branch taken flushes
the visited entry, the loop result is that single eviction. -/
theorem cacheEvictLoop_flush_case {Block : Type} {N : Nat} (fuel : Nat)
    (s : SeqState Block N) (dev : Nat → Block) (tc : Nat) (std : Fin N)
    (hbr : cacheEvictLoop (fuel + 1) s dev tc std =
      some (cacheClockStep s.cursor,
        cacheEntryFlushSeq { s with cursor := cacheClockStep s.cursor } dev
          (cacheClockStep s.cursor))) :
    ∃ v s' dev' ws, cacheEvictLoop (fuel + 1) s dev tc std = some (v, s', dev', ws) ∧
      (∀ j, j ≠ v → (s'.entries j).sec = (s.entries j).sec ∧
          (s'.entries j).data = (s.entries j).data) ∧
      (s'.entries v).sec = EMPTY_SECTOR := by
  refine ⟨cacheClockStep s.cursor,
    (cacheEntryFlushSeq { s with cursor := cacheClockStep s.cursor } dev
      (cacheClockStep s.cursor)).1,
    (cacheEntryFlushSeq { s with cursor := cacheClockStep s.cursor } dev
      (cacheClockStep s.cursor)).2.1,
    (cacheEntryFlushSeq { s with cursor := cacheClockStep s.cursor } dev
      (cacheClockStep s.cursor)).2.2, hbr, ?_, ?_⟩
  · intro j hj
    rw [cacheEntryFlushSeq_entries_ne _ dev _ j hj]
    exact ⟨rfl, rfl⟩
  · rw [cacheEntryFlushSeq_entries_same]

/-- With `try_count ≥ 1` already, if the entry `d ≥ 1` cursor steps ahead has
its recent bit clear, the loop reaches an eviction within `d` iterations,
resetting exactly one entry's sector to the sentinel and leaving every other
entry's sector and buffer untouched. -/
theorem cacheEvictLoop_hits_target {Block : Type} {N : Nat} :
    ∀ (d : Nat) (s : SeqState Block N) (dev : Nat → Block) (tc : Nat) (std : Fin N),
      1 ≤ d → 1 ≤ tc → (∀ i, (s.entries i).flag < 4) →
      (s.entries (cacheClockStep^[d] s.cursor)).flag &&& B_RECENT = 0 →
      ∃ v s' dev' ws, cacheEvictLoop d s dev tc std = some (v, s', dev', ws) ∧
        (∀ j, j ≠ v → (s'.entries j).sec = (s.entries j).sec ∧
            (s'.entries j).data = (s.entries j).data) ∧
        (s'.entries v).sec = EMPTY_SECTOR := by
  intro d
  induction d with
  | zero =>
    intro s dev tc std hd
    exact absurd hd (by omega)
  | succ d ih =>
    intro s dev tc std _ htc hf4 htar
    by_cases h0 : (s.entries (cacheClockStep s.cursor)).flag &&& B_ALL = 0
    · exact cacheEvictLoop_flush_case d s dev tc std (by rw [cacheEvictLoop, if_pos h0])
    · by_cases h2 : 1 ≤ tc ∧ (s.entries (cacheClockStep s.cursor)).flag = B_DIRTY
      · exact cacheEvictLoop_flush_case d s dev tc std
          (by rw [cacheEvictLoop, if_neg h0, if_pos h2])
      · have hfd : (s.entries (cacheClockStep s.cursor)).flag ≠ B_DIRTY :=
          fun he => h2 ⟨htc, he⟩
        obtain ⟨hrec, hdem0, _⟩ :=
          flag_demotion_cases _ (hf4 (cacheClockStep s.cursor)) h0 hfd
        rcases Nat.eq_zero_or_pos d with hd0 | hdpos
        · subst hd0
          rw [Function.iterate_one] at htar
          exact absurd htar hrec
        · have hstep :
              cacheEvictLoop (d + 1) s dev tc std =
                cacheEvictLoop d (cacheDemote s (cacheClockStep s.cursor)) dev
                  (if std = cacheClockStep s.cursor then tc + 1 else tc) std := by
            rw [cacheEvictLoop, if_neg h0, if_neg h2, if_pos ⟨htc, hrec⟩]
          have htc2 : 1 ≤ if std = cacheClockStep s.cursor then tc + 1 else tc := by
            split <;> omega
          have hf42 : ∀ i,
              ((cacheDemote s (cacheClockStep s.cursor)).entries i).flag < 4 :=
            cacheDemote_flag_lt s _ hf4
          have htar2 :
              ((cacheDemote s (cacheClockStep s.cursor)).entries
                (cacheClockStep^[d]
                  (cacheDemote s (cacheClockStep s.cursor)).cursor)).flag &&&
                B_RECENT = 0 := by
            have hcur : (cacheDemote s (cacheClockStep s.cursor)).cursor =
                cacheClockStep s.cursor := rfl
            rw [hcur]
            have hit : cacheClockStep^[d] (cacheClockStep s.cursor) =
                cacheClockStep^[d + 1] s.cursor :=
              (Function.iterate_succ_apply cacheClockStep d s.cursor).symm
            rw [hit]
            by_cases hct : cacheClockStep^[d + 1] s.cursor = cacheClockStep s.cursor
            · rw [hct] at htar
              exact absurd htar hrec
            · simp only [cacheDemote]
              rw [Function.update_noteq hct]
              exact htar
          obtain ⟨v, s', dev', ws, heq, hpres, hv⟩ :=
            ih (cacheDemote s (cacheClockStep s.cursor)) dev
              (if std = cacheClockStep s.cursor then tc + 1 else tc) std
              hdpos htc2 hf42 htar2
          refine ⟨v, s', dev', ws, ?_, ?_, hv⟩
          · rw [hstep, heq]
          · intro j hj
            obtain ⟨hs, hdta⟩ := hpres j hj
            obtain ⟨hs2, hd2⟩ := cacheDemote_preserves s (cacheClockStep s.cursor) j
            exact ⟨hs.trans hs2, hdta.trans hd2⟩

/-- With `try_count ≥ 1`, the loop needs at most `N + 1` more iterations to
evict: the first visited entry is either evicted or demoted, and a demoted
entry is certainly evicted when revisited one full lap later. -/
theorem cacheEvictLoop_second_lap {Block : Type} {N : Nat}
    (s : SeqState Block N) (dev : Nat → Block) (tc : Nat) (std : Fin N)
    (htc : 1 ≤ tc) (hf4 : ∀ i, (s.entries i).flag < 4) :
    ∃ v s' dev' ws, cacheEvictLoop (N + 1) s dev tc std = some (v, s', dev', ws) ∧
      (∀ j, j ≠ v → (s'.entries j).sec = (s.entries j).sec ∧
          (s'.entries j).data = (s.entries j).data) ∧
      (s'.entries v).sec = EMPTY_SECTOR := by
  by_cases h0 : (s.entries (cacheClockStep s.cursor)).flag &&& B_ALL = 0
  · exact cacheEvictLoop_flush_case N s dev tc std (by rw [cacheEvictLoop, if_pos h0])
  · by_cases h2 : 1 ≤ tc ∧ (s.entries (cacheClockStep s.cursor)).flag = B_DIRTY
    · exact cacheEvictLoop_flush_case N s dev tc std
        (by rw [cacheEvictLoop, if_neg h0, if_pos h2])
    · have hfd : (s.entries (cacheClockStep s.cursor)).flag ≠ B_DIRTY :=
        fun he => h2 ⟨htc, he⟩
      obtain ⟨hrec, hdem0, _⟩ :=
        flag_demotion_cases _ (hf4 (cacheClockStep s.cursor)) h0 hfd
      have hstep :
          cacheEvictLoop (N + 1) s dev tc std =
            cacheEvictLoop N (cacheDemote s (cacheClockStep s.cursor)) dev
              (if std = cacheClockStep s.cursor then tc + 1 else tc) std := by
        rw [cacheEvictLoop, if_neg h0, if_neg h2, if_pos ⟨htc, hrec⟩]
      have hN : 0 < N := s.cursor.pos
      have htc2 : 1 ≤ if std = cacheClockStep s.cursor then tc + 1 else tc := by
        split <;> omega
      have htar2 :
          ((cacheDemote s (cacheClockStep s.cursor)).entries
            (cacheClockStep^[N]
              (cacheDemote s (cacheClockStep s.cursor)).cursor)).flag &&&
            B_RECENT = 0 := by
        have hcur : (cacheDemote s (cacheClockStep s.cursor)).cursor =
            cacheClockStep s.cursor := rfl
        rw [hcur, cacheClockStep_iterate_cycle]
        simp only [cacheDemote]
        rw [Function.update_same]
        exact hdem0
      obtain ⟨v, s', dev', ws, heq, hpres, hv⟩ :=
        cacheEvictLoop_hits_target N (cacheDemote s (cacheClockStep s.cursor)) dev
          (if std = cacheClockStep s.cursor then tc + 1 else tc) std
          hN htc2 (cacheDemote_flag_lt s _ hf4) htar2
      refine ⟨v, s', dev', ws, ?_, ?_, hv⟩
      · rw [hstep, heq]
      · intro j hj
        obtain ⟨hs, hdta⟩ := hpres j hj
        obtain ⟨hs2, hd2⟩ := cacheDemote_preserves s (cacheClockStep s.cursor) j
        exact ⟨hs.trans hs2, hdta.trans hd2⟩

/-- During the first lap (`try_count = 0`), the loop either evicts a
`(0,0)` entry it passes, or walks the `d` steps back to its starting
position without changing any entry, arriving with `try_count = 1`. -/
theorem cacheEvictLoop_first_lap {Block : Type} {N : Nat} :
    ∀ (d : Nat) (s : SeqState Block N) (dev : Nat → Block) (m : Nat) (std : Fin N),
      1 ≤ d → cacheClockStep^[d] s.cursor = std →
      (∀ j, 1 ≤ j → j < d → cacheClockStep^[j] s.cursor ≠ std) →
      (∃ v s' dev' ws, cacheEvictLoop (d + m) s dev 0 std = some (v, s', dev', ws) ∧
          (∀ j, j ≠ v → (s'.entries j).sec = (s.entries j).sec ∧
              (s'.entries j).data = (s.entries j).data) ∧
          (s'.entries v).sec = EMPTY_SECTOR) ∨
      cacheEvictLoop (d + m) s dev 0 std =
        cacheEvictLoop m { s with cursor := std } dev 1 std := by
  intro d
  induction d with
  | zero =>
    intro s dev m std hd
    exact absurd hd (by omega)
  | succ d ih =>
    intro s dev m std _ hreach hdist
    have hfuel : d + 1 + m = (d + m) + 1 := by omega
    rw [hfuel]
    by_cases h0 : (s.entries (cacheClockStep s.cursor)).flag &&& B_ALL = 0
    · left
      exact cacheEvictLoop_flush_case (d + m) s dev 0 std
        (by rw [cacheEvictLoop, if_pos h0])
    · have h2 : ¬(1 ≤ 0 ∧ (s.entries (cacheClockStep s.cursor)).flag = B_DIRTY) :=
        fun h => absurd h.1 (by omega)
      have hdm : ¬(1 ≤ 0 ∧
          (s.entries (cacheClockStep s.cursor)).flag &&& B_RECENT ≠ 0) :=
        fun h => absurd h.1 (by omega)
      rcases Nat.eq_zero_or_pos d with hd0 | hdpos
      · subst hd0
        have hc : cacheClockStep s.cursor = std := by
          have h1 := hreach
          rwa [Function.iterate_one] at h1
        right
        rw [cacheEvictLoop, if_neg h0, if_neg h2, if_neg hdm, if_pos hc.symm,
          Nat.zero_add, hc]
      · have hc1 : cacheClockStep s.cursor ≠ std := by
          have h1 := hdist 1 (Nat.le_refl 1) (by omega)
          rwa [Function.iterate_one] at h1
        have hstep :
            cacheEvictLoop (d + m + 1) s dev 0 std =
              cacheEvictLoop (d + m) { s with cursor := cacheClockStep s.cursor }
                dev 0 std := by
          rw [cacheEvictLoop, if_neg h0, if_neg h2, if_neg hdm,
            if_neg (fun h => hc1 h.symm)]
        have hreach2 : cacheClockStep^[d]
            ({ s with cursor := cacheClockStep s.cursor } : SeqState Block N).cursor =
            std := by
          have hit : cacheClockStep^[d] (cacheClockStep s.cursor) =
              cacheClockStep^[d + 1] s.cursor :=
            (Function.iterate_succ_apply cacheClockStep d s.cursor).symm
          exact hit.trans hreach
        have hdist2 : ∀ j, 1 ≤ j → j < d →
            cacheClockStep^[j]
              ({ s with cursor := cacheClockStep s.cursor } : SeqState Block N).cursor ≠
              std := by
          intro j hj1 hj2
          have hit : cacheClockStep^[j] (cacheClockStep s.cursor) =
              cacheClockStep^[j + 1] s.cursor :=
            (Function.iterate_succ_apply cacheClockStep j s.cursor).symm
          rw [hit]
          exact hdist (j + 1) (by omega) (by omega)
        rcases ih { s with cursor := cacheClockStep s.cursor } dev m std
            hdpos hreach2 hdist2 with hleft | hright
        · left
          rw [hstep]
          exact hleft
        · right
          rw [hstep]
          exact hright

/-- C4 amended.  From any table state (2-bit flags), the clock evictor
terminates and evicts exactly one entry — resetting that entry's sector to
the sentinel and leaving every other entry's sector and buffer untouched —
within at most `2*N + 1` cursor advances: two full laps plus one further
step.  (The counterexample `cacheEvict_two_laps_insufficient_cex` shows two
full laps alone, `2*N` advances, are not always enough.) -/
theorem cacheEvict_terminates_two_laps_plus_one {Block : Type} {N : Nat}
    (s : SeqState Block N) (dev : Nat → Block)
    (hf4 : ∀ i, (s.entries i).flag < 4) :
    ∃ v s' dev' ws, cacheEvict s dev = some (v, s', dev', ws) ∧
      (∀ j, j ≠ v → (s'.entries j).sec = (s.entries j).sec ∧
          (s'.entries j).data = (s.entries j).data) ∧
      (s'.entries v).sec = EMPTY_SECTOR := by
  unfold cacheEvict
  have hN : 0 < N := s.cursor.pos
  have hsplit : 2 * N + 1 = N + (N + 1) := by omega
  rw [hsplit]
  rcases cacheEvictLoop_first_lap N s dev (N + 1) s.cursor hN
      (cacheClockStep_iterate_cycle s.cursor)
      (fun j hj1 hj2 => cacheClockStep_iterate_ne s.cursor j hj1 hj2) with h | h
  · exact h
  · rw [h]
    exact cacheEvictLoop_second_lap { s with cursor := s.cursor } dev 1 s.cursor
      (Nat.le_refl 1) hf4

/-- C4 as stated ("within at most 2 full laps") is violated by the code: with
both entries of a 2-slot table marked `(recent=1, dirty=1)`, `2*N = 4` cursor
advances end without any eviction (the loop is still running), while the
`2*N + 1 = 5`-th advance evicts entry 1. -/
theorem cacheEvict_two_laps_insufficient_cex :
    cacheEvictLoop (2 * 2) (⟨![⟨10, 3, ()⟩, ⟨11, 3, ()⟩], 0⟩ : SeqState Unit 2)
        (fun _ => ()) 0
        (⟨![⟨10, 3, ()⟩, ⟨11, 3, ()⟩], 0⟩ : SeqState Unit 2).cursor = none ∧
    (cacheEvict (⟨![⟨10, 3, ()⟩, ⟨11, 3, ()⟩], 0⟩ : SeqState Unit 2)
        (fun _ => ())).map (fun r => r.1) = some 1 := by
  exact ⟨rfl, rfl⟩

/-- Witness for the amended C4 at the all-marked 2-slot table. -/
theorem cacheEvict_terminates_two_laps_plus_one_witness :
    ∃ v s' dev' ws,
      cacheEvict (⟨![⟨10, 3, ()⟩, ⟨11, 3, ()⟩], 0⟩ : SeqState Unit 2) (fun _ => ()) =
        some (v, s', dev', ws) ∧
      (∀ j, j ≠ v → (s'.entries j).sec =
          ((⟨![⟨10, 3, ()⟩, ⟨11, 3, ()⟩], 0⟩ : SeqState Unit 2).entries j).sec ∧
          (s'.entries j).data =
          ((⟨![⟨10, 3, ()⟩, ⟨11, 3, ()⟩], 0⟩ : SeqState Unit 2).entries j).data) ∧
      (s'.entries v).sec = EMPTY_SECTOR :=
  cacheEvict_terminates_two_laps_plus_one
    (⟨![⟨10, 3, ()⟩, ⟨11, 3, ()⟩], 0⟩ : SeqState Unit 2) (fun _ => ()) (by decide)

/-- Witness for the amended C3 at a concrete second-lap iteration
(`try_count = 1`, visited entry has `flag = B_ALL`). -/
theorem cacheEvict_demotion_only_after_first_lap_witness :
    ∃ s2 : SeqState Unit 2,
      cacheEvictLoop (0 + 1) (⟨![⟨10, 0, ()⟩, ⟨11, 3, ()⟩], 0⟩ : SeqState Unit 2)
          (fun _ => ()) 1 1 =
        cacheEvictLoop 0 s2 (fun _ => ())
          (if (1 : Fin 2) = cacheClockStep (⟨![⟨10, 0, ()⟩, ⟨11, 3, ()⟩], 0⟩ :
              SeqState Unit 2).cursor then 1 + 1 else 1) 1 ∧
      s2.cursor = cacheClockStep (⟨![⟨10, 0, ()⟩, ⟨11, 3, ()⟩], 0⟩ : SeqState Unit 2).cursor ∧
      (∀ j, j ≠ cacheClockStep (⟨![⟨10, 0, ()⟩, ⟨11, 3, ()⟩], 0⟩ : SeqState Unit 2).cursor →
        s2.entries j = (⟨![⟨10, 0, ()⟩, ⟨11, 3, ()⟩], 0⟩ : SeqState Unit 2).entries j) ∧
      (1 ≤ 1 →
        ((⟨![⟨10, 0, ()⟩, ⟨11, 3, ()⟩], 0⟩ : SeqState Unit 2).entries
            (cacheClockStep (⟨![⟨10, 0, ()⟩, ⟨11, 3, ()⟩], 0⟩ :
              SeqState Unit 2).cursor)).flag &&& B_RECENT ≠ 0 →
        (s2.entries (cacheClockStep (⟨![⟨10, 0, ()⟩, ⟨11, 3, ()⟩], 0⟩ :
            SeqState Unit 2).cursor)).flag &&& B_RECENT = 0 ∧
        (s2.entries (cacheClockStep (⟨![⟨10, 0, ()⟩, ⟨11, 3, ()⟩], 0⟩ :
            SeqState Unit 2).cursor)).flag &&& B_DIRTY =
          ((⟨![⟨10, 0, ()⟩, ⟨11, 3, ()⟩], 0⟩ : SeqState Unit 2).entries
            (cacheClockStep (⟨![⟨10, 0, ()⟩, ⟨11, 3, ()⟩], 0⟩ :
              SeqState Unit 2).cursor)).flag &&& B_DIRTY) ∧
      ((1 : Nat) = 0 → s2.entries = (⟨![⟨10, 0, ()⟩, ⟨11, 3, ()⟩], 0⟩ :
          SeqState Unit 2).entries) :=
  cacheEvict_demotion_only_after_first_lap 0 1
    (⟨![⟨10, 0, ()⟩, ⟨11, 3, ()⟩], 0⟩ : SeqState Unit 2) (fun _ => ()) 1
    (by decide) (by decide) (by decide)

/-! ## C7: flush is idempotent in device traffic -/

theorem cacheFlushStep_sec_data {Block : Type} {N : Nat}
    (acc : SeqState Block N × (Nat → Block) × List (Nat × Block)) (i j : Fin N) :
    ((cacheFlushStep acc i).1.entries j).sec = (acc.1.entries j).sec ∧
    ((cacheFlushStep acc i).1.entries j).data = (acc.1.entries j).data := by
  simp only [cacheFlushStep]
  split <;> try dsimp only
  · by_cases hj : j = i
    · subst hj
      rw [Function.update_same]
      exact ⟨rfl, rfl⟩
    · rw [Function.update_noteq hj]
      exact ⟨rfl, rfl⟩
  · exact ⟨rfl, rfl⟩

theorem cacheFlushStep_flag_lt {Block : Type} {N : Nat}
    (acc : SeqState Block N × (Nat → Block) × List (Nat × Block)) (i : Fin N)
    (h : ∀ j, (acc.1.entries j).flag < 4) (j : Fin N) :
    ((cacheFlushStep acc i).1.entries j).flag < 4 := by
  simp only [cacheFlushStep]
  split <;> try dsimp only
  · by_cases hj : j = i
    · subst hj
      rw [Function.update_same]
      have := h j
      simp only []
      omega
    · rw [Function.update_noteq hj]
      exact h j
  · exact h j

theorem cacheFlushStep_clear {Block : Type} {N : Nat}
    (acc : SeqState Block N × (Nat → Block) × List (Nat × Block)) (i j : Fin N)
    (h : (acc.1.entries j).flag &&& B_DIRTY = 0) :
    ((cacheFlushStep acc i).1.entries j).flag &&& B_DIRTY = 0 := by
  simp only [cacheFlushStep]
  split <;> try dsimp only
  · rename_i hdi
    by_cases hj : j = i
    · subst hj
      exact absurd h hdi
    · rw [Function.update_noteq hj]
      exact h
  · exact h

theorem cacheFlushStep_clears_self {Block : Type} {N : Nat}
    (acc : SeqState Block N × (Nat → Block) × List (Nat × Block)) (i : Fin N)
    (h4 : (acc.1.entries i).flag < 4) :
    ((cacheFlushStep acc i).1.entries i).flag &&& B_DIRTY = 0 := by
  simp only [cacheFlushStep]
  split <;> try dsimp only
  · rename_i hdi
    rw [Function.update_same]
    simp only []
    set f := (acc.1.entries i).flag with hf
    clear_value f
    interval_cases f
    · decide
    · decide
    · decide
    · decide
  · rename_i hdi
    omega

theorem cacheFlushFold_clear {Block : Type} {N : Nat} :
    ∀ (l : List (Fin N)) (acc : SeqState Block N × (Nat → Block) × List (Nat × Block))
      (j : Fin N), (acc.1.entries j).flag &&& B_DIRTY = 0 →
      (((l.foldl cacheFlushStep acc).1.entries j).flag &&& B_DIRTY = 0)
  | [], _, _, h => h
  | i :: l, acc, j, h =>
    cacheFlushFold_clear l (cacheFlushStep acc i) j (cacheFlushStep_clear acc i j h)

theorem cacheFlushFold_flag_lt {Block : Type} {N : Nat} :
    ∀ (l : List (Fin N)) (acc : SeqState Block N × (Nat → Block) × List (Nat × Block)),
      (∀ j, (acc.1.entries j).flag < 4) →
      ∀ j, (((l.foldl cacheFlushStep acc).1.entries j).flag < 4)
  | [], _, h, j => h j
  | i :: l, acc, h, j =>
    cacheFlushFold_flag_lt l (cacheFlushStep acc i) (cacheFlushStep_flag_lt acc i h) j

theorem cacheFlushFold_clears_mem {Block : Type} {N : Nat} :
    ∀ (l : List (Fin N)) (acc : SeqState Block N × (Nat → Block) × List (Nat × Block)),
      (∀ j, (acc.1.entries j).flag < 4) →
      ∀ j, j ∈ l → (((l.foldl cacheFlushStep acc).1.entries j).flag &&& B_DIRTY = 0) := by
  intro l
  induction l with
  | nil =>
    intro acc _ j hj
    exact absurd hj (List.not_mem_nil j)
  | cons i l ih =>
    intro acc h4 j hj
    rcases List.mem_cons.mp hj with hji | hjl
    · subst hji
      exact cacheFlushFold_clear l (cacheFlushStep acc j) j
        (cacheFlushStep_clears_self acc j (h4 j))
    · exact ih (cacheFlushStep acc i) (cacheFlushStep_flag_lt acc i h4) j hjl

/-- After one `cache_flush`, every entry's dirty bit is clear. -/
theorem cache_flush_clears_dirty {Block : Type} {N : Nat}
    (s : SeqState Block N) (dev : Nat → Block)
    (hf4 : ∀ i, (s.entries i).flag < 4) (i : Fin N) :
    (((cache_flush s dev).1).entries i).flag &&& B_DIRTY = 0 :=
  cacheFlushFold_clears_mem (List.finRange N) (s, dev, []) hf4 i (List.mem_finRange i)

theorem cacheFlushFold_skip {Block : Type} {N : Nat} :
    ∀ (l : List (Fin N)) (acc : SeqState Block N × (Nat → Block) × List (Nat × Block)),
      (∀ j : Fin N, (acc.1.entries j).flag &&& B_DIRTY = 0) →
      l.foldl cacheFlushStep acc = acc := by
  intro l
  induction l with
  | nil =>
    intro acc _
    rfl
  | cons i l ih =>
    intro acc h
    have hstep : cacheFlushStep acc i = acc := by
      simp only [cacheFlushStep]
      rw [if_neg (fun hc => hc (h i))]
    rw [List.foldl_cons, hstep]
    exact ih acc h

/-- C7.  `cache_flush` is idempotent with respect to device traffic: a second
flush immediately after a first one (no intervening writes) finds every dirty
bit already clear, changes nothing, and issues the empty list of device
writes. -/
theorem cache_flush_idempotent {Block : Type} {N : Nat}
    (s : SeqState Block N) (dev : Nat → Block)
    (hf4 : ∀ i, (s.entries i).flag < 4) :
    cache_flush (cache_flush s dev).1 (cache_flush s dev).2.1 =
      ((cache_flush s dev).1, (cache_flush s dev).2.1, []) :=
  cacheFlushFold_skip (List.finRange N) ((cache_flush s dev).1, (cache_flush s dev).2.1, [])
    (fun j => cache_flush_clears_dirty s dev hf4 j)

/-- Witness for C7 on a one-slot dirty cache. -/
theorem cache_flush_idempotent_witness :
    cache_flush (cache_flush (⟨![⟨5, 3, 42⟩], 0⟩ : SeqState Nat 1) (fun _ => 0)).1
        (cache_flush (⟨![⟨5, 3, 42⟩], 0⟩ : SeqState Nat 1) (fun _ => 0)).2.1 =
      ((cache_flush (⟨![⟨5, 3, 42⟩], 0⟩ : SeqState Nat 1) (fun _ => 0)).1,
       (cache_flush (⟨![⟨5, 3, 42⟩], 0⟩ : SeqState Nat 1) (fun _ => 0)).2.1, []) :=
  cache_flush_idempotent (⟨![⟨5, 3, 42⟩], 0⟩ : SeqState Nat 1) (fun _ => 0) (by decide)

/-! ## C10: the sentinel is an ordinary sector value and matches empty slots -/

theorem cacheMarkHit_sec {Block : Type} {N : Nat} (s : SeqState Block N)
    (i : Fin N) (w : WriteFlag) (j : Fin N) :
    ((cacheMarkHit s i w).entries j).sec = (s.entries j).sec := by
  simp only [cacheMarkHit]
  by_cases hj : j = i
  · subst hj
    rw [Function.update_same]
  · rw [Function.update_noteq hj]

theorem cacheMarkHit_data {Block : Type} {N : Nat} (s : SeqState Block N)
    (i : Fin N) (w : WriteFlag) (j : Fin N) :
    ((cacheMarkHit s i w).entries j).data = (s.entries j).data := by
  simp only [cacheMarkHit]
  by_cases hj : j = i
  · subst hj
    rw [Function.update_same]
  · rw [Function.update_noteq hj]

theorem cacheMarkHit_write_dirty {Block : Type} {N : Nat} (s : SeqState Block N)
    (i : Fin N) (hf4 : (s.entries i).flag < 4) :
    ((cacheMarkHit s i .W_WRITE).entries i).flag &&& B_DIRTY ≠ 0 := by
  simp only [cacheMarkHit]
  rw [Function.update_same]
  dsimp only
  set f := (s.entries i).flag with hf
  clear_value f
  interval_cases f
  · decide
  · decide
  · decide
  · decide

theorem cacheWriteData_data_same {Block : Type} {N : Nat} (s : SeqState Block N)
    (i : Fin N) (p : Block) :
    ((cacheWriteData s i p).entries i).data = p := by
  simp only [cacheWriteData]
  rw [Function.update_same]

theorem cacheWriteData_sec {Block : Type} {N : Nat} (s : SeqState Block N)
    (i : Fin N) (p : Block) (j : Fin N) :
    ((cacheWriteData s i p).entries j).sec = (s.entries j).sec := by
  simp only [cacheWriteData]
  by_cases hj : j = i
  · subst hj
    rw [Function.update_same]
  · rw [Function.update_noteq hj]

theorem cacheWriteData_flag {Block : Type} {N : Nat} (s : SeqState Block N)
    (i : Fin N) (p : Block) (j : Fin N) :
    ((cacheWriteData s i p).entries j).flag = (s.entries j).flag := by
  simp only [cacheWriteData]
  by_cases hj : j = i
  · subst hj
    rw [Function.update_same]
  · rw [Function.update_noteq hj]

theorem cacheGetIdx_hit {Block : Type} {N : Nat} (s : SeqState Block N)
    (sec : Nat) (w : WriteFlag) (i0 : Fin N)
    (hfind : (List.finRange N).find? (fun i => (s.entries i).sec == sec) = some i0) :
    cacheGetIdx s sec w = some (i0, cacheMarkHit s i0 w) := by
  simp only [cacheGetIdx, hfind]

/-- C10.  The "empty" sentinel is the ordinary sector value
`(block_sector_t)-1 = 4294967295`, and `cacheGetIdx` compares sectors with
plain equality, so a public `cache_read` or `cache_write` for sector
`4294967295` on a cache with an empty slot matches that slot as a hit: no
device read or write is issued, the device is untouched, no sector is
installed (every entry's `sec` is unchanged); the read returns the slot's
residual buffer contents, and the write overwrites the residual buffer with
the caller's block and marks the slot dirty — without the sector ever being
loaded from the device. -/
theorem sentinel_lookup_hit {Block : Type} {N : Nat} (blockSize : Nat)
    (s : SeqState Block N) (dev : Nat → Block) (P : Block) (i0 : Fin N)
    (hf4 : (s.entries i0).flag < 4)
    (hfind : (List.finRange N).find?
      (fun i => (s.entries i).sec == EMPTY_SECTOR) = some i0) :
    EMPTY_SECTOR = 4294967295 ∧
    cache_read blockSize s dev EMPTY_SECTOR =
      some ((s.entries i0).data, cacheMarkHit s i0 .W_READ, dev, [], []) ∧
    (∀ j, ((cacheMarkHit s i0 .W_READ).entries j).sec = (s.entries j).sec) ∧
    cache_write blockSize s dev EMPTY_SECTOR P =
      some (cacheWriteData (cacheMarkHit s i0 .W_WRITE) i0 P, dev, [], []) ∧
    ((cacheWriteData (cacheMarkHit s i0 .W_WRITE) i0 P).entries i0).data = P ∧
    ((cacheWriteData (cacheMarkHit s i0 .W_WRITE) i0 P).entries i0).flag &&&
      B_DIRTY ≠ 0 ∧
    (∀ j, ((cacheWriteData (cacheMarkHit s i0 .W_WRITE) i0 P).entries j).sec =
      (s.entries j).sec) := by
  have hGr := cacheGetIdx_hit s EMPTY_SECTOR .W_READ i0 hfind
  have hGw := cacheGetIdx_hit s EMPTY_SECTOR .W_WRITE i0 hfind
  refine ⟨rfl, ?_, ?_, ?_, ?_, ?_, ?_⟩
  · simp only [cache_read, cacheTryGetIdx, hGr]
    rw [cacheMarkHit_data]
  · exact fun j => cacheMarkHit_sec s i0 .W_READ j
  · simp only [cache_write, cacheTryGetIdx, hGw]
  · exact cacheWriteData_data_same (cacheMarkHit s i0 .W_WRITE) i0 P
  · rw [cacheWriteData_flag]
    exact cacheMarkHit_write_dirty s i0 hf4
  · intro j
    rw [cacheWriteData_sec, cacheMarkHit_sec]

/-- Witness for C10: a one-slot cache whose slot is empty with residual
buffer value 42. -/
theorem sentinel_lookup_hit_witness :
    EMPTY_SECTOR = 4294967295 ∧
    cache_read 8 (⟨![⟨EMPTY_SECTOR, 0, 42⟩], 0⟩ : SeqState Nat 1) (fun _ => 0)
        EMPTY_SECTOR =
      some (((⟨![⟨EMPTY_SECTOR, 0, 42⟩], 0⟩ : SeqState Nat 1).entries 0).data,
        cacheMarkHit (⟨![⟨EMPTY_SECTOR, 0, 42⟩], 0⟩ : SeqState Nat 1) 0 .W_READ,
        (fun _ => 0), [], []) ∧
    (∀ j, ((cacheMarkHit (⟨![⟨EMPTY_SECTOR, 0, 42⟩], 0⟩ : SeqState Nat 1) 0
        .W_READ).entries j).sec =
      (((⟨![⟨EMPTY_SECTOR, 0, 42⟩], 0⟩ : SeqState Nat 1)).entries j).sec) ∧
    cache_write 8 (⟨![⟨EMPTY_SECTOR, 0, 42⟩], 0⟩ : SeqState Nat 1) (fun _ => 0)
        EMPTY_SECTOR 7 =
      some (cacheWriteData
        (cacheMarkHit (⟨![⟨EMPTY_SECTOR, 0, 42⟩], 0⟩ : SeqState Nat 1) 0 .W_WRITE) 0 7,
        (fun _ => 0), [], []) ∧
    ((cacheWriteData (cacheMarkHit (⟨![⟨EMPTY_SECTOR, 0, 42⟩], 0⟩ : SeqState Nat 1) 0
        .W_WRITE) 0 7).entries 0).data = 7 ∧
    ((cacheWriteData (cacheMarkHit (⟨![⟨EMPTY_SECTOR, 0, 42⟩], 0⟩ : SeqState Nat 1) 0
        .W_WRITE) 0 7).entries 0).flag &&& B_DIRTY ≠ 0 ∧
    (∀ j, ((cacheWriteData (cacheMarkHit (⟨![⟨EMPTY_SECTOR, 0, 42⟩], 0⟩ :
        SeqState Nat 1) 0 .W_WRITE) 0 7).entries j).sec =
      (((⟨![⟨EMPTY_SECTOR, 0, 42⟩], 0⟩ : SeqState Nat 1)).entries j).sec) :=
  sentinel_lookup_hit 8 (⟨![⟨EMPTY_SECTOR, 0, 42⟩], 0⟩ : SeqState Nat 1)
    (fun _ => 0) 7 0 (by decide) (by decide)

/-! ## C6: write-then-flush durability -/

theorem cacheMarkHit_entries_ne {Block : Type} {N : Nat} (s : SeqState Block N)
    (i : Fin N) (w : WriteFlag) (j : Fin N) (h : j ≠ i) :
    (cacheMarkHit s i w).entries j = s.entries j := by
  simp only [cacheMarkHit]
  exact Function.update_noteq h _ _

theorem cacheMarkHit_flag_W_NO {Block : Type} {N : Nat} (s : SeqState Block N)
    (i : Fin N) :
    ((cacheMarkHit s i .W_NO).entries i).flag = (s.entries i).flag ||| B_RECENT := by
  simp only [cacheMarkHit]
  rw [Function.update_same]

theorem cacheMarkHit_flag_W_WRITE {Block : Type} {N : Nat} (s : SeqState Block N)
    (i : Fin N) :
    ((cacheMarkHit s i .W_WRITE).entries i).flag =
      ((s.entries i).flag ||| B_ALL) ||| B_RECENT := by
  simp only [cacheMarkHit]
  rw [Function.update_same]

theorem cacheInstall_entries_ne {Block : Type} {N : Nat} (s : SeqState Block N)
    (v : Fin N) (sec : Nat) (dev : Nat → Block) (w : WriteFlag) (j : Fin N)
    (h : j ≠ v) :
    (cacheInstall s v sec dev w).entries j = s.entries j := by
  simp only [cacheInstall]
  exact Function.update_noteq h _ _

theorem cacheInstall_self_W_NO {Block : Type} {N : Nat} (s : SeqState Block N)
    (v : Fin N) (sec : Nat) (dev : Nat → Block) :
    (cacheInstall s v sec dev .W_NO).entries v =
      { sec := sec, flag := (s.entries v).flag ||| B_RECENT, data := dev sec } := by
  simp only [cacheInstall]
  rw [Function.update_same]

theorem cacheInstall_self_W_WRITE {Block : Type} {N : Nat} (s : SeqState Block N)
    (v : Fin N) (sec : Nat) (dev : Nat → Block) :
    (cacheInstall s v sec dev .W_WRITE).entries v =
      { sec := sec, flag := ((s.entries v).flag ||| B_RECENT) ||| B_ALL,
        data := dev sec } := by
  simp only [cacheInstall]
  rw [Function.update_same]

/-- Flushing a clean entry issues no device write: the device and the write
list are unchanged. -/
theorem cacheEntryFlushSeq_clean_eq {Block : Type} {N : Nat} (s : SeqState Block N)
    (dev : Nat → Block) (i : Fin N) (h : (s.entries i).flag &&& B_DIRTY = 0) :
    cacheEntryFlushSeq s dev i = ((cacheEntryFlushSeq s dev i).1, dev, []) := by
  simp only [cacheEntryFlushSeq]
  rw [if_neg (fun hc => hc h), if_neg (fun hc => hc h)]

theorem cacheFlushStep_flag_ne {Block : Type} {N : Nat}
    (acc : SeqState Block N × (Nat → Block) × List (Nat × Block)) (i j : Fin N)
    (h : j ≠ i) :
    ((cacheFlushStep acc i).1.entries j).flag = (acc.1.entries j).flag := by
  simp only [cacheFlushStep]
  split <;> try dsimp only
  rw [Function.update_noteq h]

/-- The flush fold never changes any entry's sector. -/
theorem cacheFlushFold_sec {Block : Type} {N : Nat} :
    ∀ (l : List (Fin N)) (acc : SeqState Block N × (Nat → Block) × List (Nat × Block))
      (j : Fin N),
      ((l.foldl cacheFlushStep acc).1.entries j).sec = (acc.1.entries j).sec
  | [], _, _ => rfl
  | i :: l, acc, j =>
    (cacheFlushFold_sec l (cacheFlushStep acc i) j).trans
      (cacheFlushStep_sec_data acc i j).1

/-- If the device already holds `P` at sector `S` and every entry claiming
sector `S` is clean, the flush fold leaves the device value at `S` alone. -/
theorem cacheFlushFold_dev {Block : Type} {N : Nat} (S : Nat) (P : Block) :
    ∀ (l : List (Fin N)) (acc : SeqState Block N × (Nat → Block) × List (Nat × Block)),
      acc.2.1 S = P →
      (∀ j, (acc.1.entries j).sec = S → (acc.1.entries j).flag &&& B_DIRTY = 0) →
      ((l.foldl cacheFlushStep acc).2.1) S = P := by
  intro l
  induction l with
  | nil =>
    intro acc hdev _
    exact hdev
  | cons i l ih =>
    intro acc hdev hclean
    apply ih (cacheFlushStep acc i)
    · by_cases hdi : (acc.1.entries i).flag &&& B_DIRTY ≠ 0
      · have hsi : (acc.1.entries i).sec ≠ S := fun he => hdi (hclean i he)
        have hstep : (cacheFlushStep acc i).2.1 =
            Function.update acc.2.1 (acc.1.entries i).sec (acc.1.entries i).data := by
          simp only [cacheFlushStep]
          rw [if_pos hdi]
        rw [hstep, Function.update_noteq (fun he => hsi he.symm), hdev]
      · have hstep : cacheFlushStep acc i = acc := by
          simp only [cacheFlushStep]
          rw [if_neg hdi]
        rw [hstep]
        exact hdev
    · intro j hsj
      rw [(cacheFlushStep_sec_data acc i j).1] at hsj
      by_cases hj : j = i
      · subst hj
        by_cases hdi : (acc.1.entries j).flag &&& B_DIRTY ≠ 0
        · exact absurd (hclean j hsj) hdi
        · have hstep : cacheFlushStep acc j = acc := by
            simp only [cacheFlushStep]
            rw [if_neg hdi]
          rw [hstep]
          omega
      · rw [cacheFlushStep_flag_ne acc i j hj]
        exact hclean j hsj

/-- If entry `k` (still to be processed) holds sector `S`, buffer `P`, and is
dirty, while every other entry claiming `S` is clean, the flush fold ends
with the device holding `P` at `S`. -/
theorem cacheFlushFold_writes_target {Block : Type} {N : Nat} (S : Nat) (P : Block) :
    ∀ (l : List (Fin N)) (acc : SeqState Block N × (Nat → Block) × List (Nat × Block))
      (k : Fin N),
      k ∈ l →
      (acc.1.entries k).sec = S → (acc.1.entries k).data = P →
      (acc.1.entries k).flag &&& B_DIRTY ≠ 0 →
      (∀ j, j ≠ k → (acc.1.entries j).sec = S →
        (acc.1.entries j).flag &&& B_DIRTY = 0) →
      (∀ j, (acc.1.entries j).flag < 4) →
      ((l.foldl cacheFlushStep acc).2.1) S = P := by
  intro l
  induction l with
  | nil =>
    intro acc k hk
    exact absurd hk (List.not_mem_nil k)
  | cons i l ih =>
    intro acc k hk hsec hdata hdirty hothers hf4
    by_cases hik : i = k
    · subst hik
      rw [List.foldl_cons]
      apply cacheFlushFold_dev S P l (cacheFlushStep acc i)
      · have hstep : (cacheFlushStep acc i).2.1 =
            Function.update acc.2.1 (acc.1.entries i).sec (acc.1.entries i).data := by
          simp only [cacheFlushStep]
          rw [if_pos hdirty]
        rw [hstep, hsec, hdata, Function.update_same]
      · intro j hsj
        by_cases hj : j = i
        · subst hj
          exact cacheFlushStep_clears_self acc j (hf4 j)
        · rw [cacheFlushStep_flag_ne acc i j hj]
          rw [(cacheFlushStep_sec_data acc i j).1] at hsj
          exact hothers j hj hsj
    · rw [List.foldl_cons]
      have hki : k ≠ i := fun he => hik he.symm
      apply ih (cacheFlushStep acc i) k
      · rcases List.mem_cons.mp hk with he | hl
        · exact absurd he.symm hik
        · exact hl
      · rw [(cacheFlushStep_sec_data acc i k).1]
        exact hsec
      · rw [(cacheFlushStep_sec_data acc i k).2]
        exact hdata
      · rw [cacheFlushStep_flag_ne acc i k hki]
        exact hdirty
      · intro j hjk hsj
        rw [(cacheFlushStep_sec_data acc i j).1] at hsj
        by_cases hj : j = i
        · subst hj
          exact cacheFlushStep_clears_self acc j (hf4 j)
        · rw [cacheFlushStep_flag_ne acc i j hj]
          exact hothers j hjk hsj
      · exact cacheFlushStep_flag_lt acc i hf4

/-- Running the read-ahead loader on a cache that is clean everywhere except
possibly at the cursor slot (the entry the caller just installed; the loader
starts its clock sweep there and can never evict it within one step, since
with `N ≥ 2` the first stepped slot differs from the cursor and is clean):
the loader completes, touches no device sector, leaves the cursor slot
untouched, and leaves every other slot clean. -/
theorem cacheLoadThread_clean_except_cursor {Block : Type} {N : Nat}
    (blockSize aheadSec : Nat) (s : SeqState Block N) (dev : Nat → Block)
    (hN : 2 ≤ N)
    (hflags : ∀ j, j ≠ s.cursor → (s.entries j).flag = 0)
    (hsec : (s.entries s.cursor).sec ≠ aheadSec) :
    ∃ s4 rs4, cacheLoadThread blockSize s dev aheadSec = some (s4, dev, [], rs4, true) ∧
      s4.entries s.cursor = s.entries s.cursor ∧
      (∀ j, j ≠ s.cursor →
        (s4.entries j).flag &&& B_DIRTY = 0 ∧ (s4.entries j).flag < 4) := by
  by_cases hbs : blockSize ≤ aheadSec
  · refine ⟨s, [], ?_, rfl, ?_⟩
    · unfold cacheLoadThread
      rw [if_pos hbs]
    · intro j hj
      rw [hflags j hj]
      exact ⟨by decide, by decide⟩
  · rcases hfind2 : (List.finRange N).find? (fun i => (s.entries i).sec == aheadSec)
      with _ | j0
    · -- loader miss: evict one clean slot and install
      have hc2 : cacheClockStep s.cursor ≠ s.cursor := cacheClockStep_ne_self s.cursor hN
      have hfl2 : (s.entries (cacheClockStep s.cursor)).flag = 0 := hflags _ hc2
      have hclear2 : (s.entries (cacheClockStep s.cursor)).flag &&& B_DIRTY = 0 := by
        rw [hfl2]
        decide
      have hev : cacheEvict s dev = some (cacheClockStep s.cursor,
          (cacheEntryFlushSeq { s with cursor := cacheClockStep s.cursor } dev
            (cacheClockStep s.cursor)).1, dev, []) := by
        unfold cacheEvict
        rw [cacheEvictLoop, if_pos (show (s.entries (cacheClockStep s.cursor)).flag &&&
          B_ALL = 0 by rw [hfl2]; decide)]
        rw [cacheEntryFlushSeq_clean_eq { s with cursor := cacheClockStep s.cursor }
          dev (cacheClockStep s.cursor) hclear2]
      have hGn : cacheGetIdx s aheadSec .W_NO = none := by
        simp only [cacheGetIdx, hfind2]
      have hload : cacheLoadThread blockSize s dev aheadSec =
          some (cacheInstall
            (cacheEntryFlushSeq { s with cursor := cacheClockStep s.cursor } dev
              (cacheClockStep s.cursor)).1
            (cacheClockStep s.cursor) aheadSec dev .W_NO, dev, [], [aheadSec], true) := by
        unfold cacheLoadThread
        rw [if_neg hbs]
        simp only [hGn, hev]
      refine ⟨_, [aheadSec], hload, ?_, ?_⟩
      · have h1 := cacheInstall_entries_ne
          (cacheEntryFlushSeq { s with cursor := cacheClockStep s.cursor } dev
            (cacheClockStep s.cursor)).1
          (cacheClockStep s.cursor) aheadSec dev .W_NO s.cursor
          (fun he => hc2 he.symm)
        have h2 := cacheEntryFlushSeq_entries_ne
          { s with cursor := cacheClockStep s.cursor } dev
          (cacheClockStep s.cursor) s.cursor (fun he => hc2 he.symm)
        exact h1.trans h2
      · intro j hj
        by_cases hjc2 : j = cacheClockStep s.cursor
        · rw [hjc2]
          have h1 := cacheInstall_self_W_NO
            (cacheEntryFlushSeq { s with cursor := cacheClockStep s.cursor } dev
              (cacheClockStep s.cursor)).1 (cacheClockStep s.cursor) aheadSec dev
          have h2 := cacheEntryFlushSeq_entries_same
            { s with cursor := cacheClockStep s.cursor } dev (cacheClockStep s.cursor)
          rw [h1, h2]
          constructor
          · exact show (B_RECENT ||| B_RECENT) &&& B_DIRTY = 0 by decide
          · exact show (B_RECENT ||| B_RECENT) < 4 by decide
        · have h1 := cacheInstall_entries_ne
            (cacheEntryFlushSeq { s with cursor := cacheClockStep s.cursor } dev
              (cacheClockStep s.cursor)).1
            (cacheClockStep s.cursor) aheadSec dev .W_NO j hjc2
          have h2 := cacheEntryFlushSeq_entries_ne
            { s with cursor := cacheClockStep s.cursor } dev
            (cacheClockStep s.cursor) j hjc2
          rw [h1, h2]
          have h3 : (({ s with cursor := cacheClockStep s.cursor } :
              SeqState Block N).entries j).flag = 0 := hflags j hj
          rw [h3]
          exact ⟨by decide, by decide⟩
    · -- loader hit: only flag |= B_RECENT on the found slot
      have hj0sec : (s.entries j0).sec = aheadSec := by
        have h := List.find?_some hfind2
        exact beq_iff_eq.mp h
      have hj0 : j0 ≠ s.cursor := fun he => hsec (by rw [← he]; exact hj0sec)
      have hGh : cacheGetIdx s aheadSec .W_NO =
          some (j0, cacheMarkHit s j0 .W_NO) :=
        cacheGetIdx_hit s aheadSec .W_NO j0 hfind2
      have hload : cacheLoadThread blockSize s dev aheadSec =
          some (cacheMarkHit s j0 .W_NO, dev, [], [], true) := by
        unfold cacheLoadThread
        rw [if_neg hbs]
        simp only [hGh]
      refine ⟨_, [], hload, ?_, ?_⟩
      · exact cacheMarkHit_entries_ne s j0 .W_NO s.cursor (fun he => hj0 he.symm)
      · intro j hj
        by_cases hjj0 : j = j0
        · rw [hjj0] at hj ⊢
          rw [cacheMarkHit_flag_W_NO, hflags j0 hj]
          exact ⟨by decide, by decide⟩
        · rw [cacheMarkHit_entries_ne s j0 .W_NO j hjj0, hflags j hj]
          exact ⟨by decide, by decide⟩

/-- `cache_write` on an all-clean cache (every flag `B_NOFLAG`, as after
`cache_init` or a completed flush) always succeeds with no device write, and
afterwards exactly one entry — the one now caching sector `S` — holds buffer
`P` and is dirty, while every other entry is clean. -/
theorem cache_write_clean {Block : Type} {N : Nat} (blockSize S : Nat) (P : Block)
    (s : SeqState Block N) (dev : Nat → Block) (hN : 2 ≤ N)
    (hclean : ∀ i, (s.entries i).flag = 0) :
    ∃ s1 dev1 ws1 rs1 k,
      cache_write blockSize s dev S P = some (s1, dev1, ws1, rs1) ∧
      dev1 = dev ∧ ws1 = [] ∧
      (s1.entries k).sec = S ∧ (s1.entries k).data = P ∧
      (s1.entries k).flag &&& B_DIRTY ≠ 0 ∧
      (∀ j, j ≠ k → (s1.entries j).flag &&& B_DIRTY = 0) ∧
      (∀ j, (s1.entries j).flag < 4) := by
  rcases hfind : (List.finRange N).find? (fun i => (s.entries i).sec == S) with _ | i0
  · -- miss: evict a clean slot, install, run the read-ahead loader
    have hfl1 : (s.entries (cacheClockStep s.cursor)).flag = 0 := hclean _
    have hclear1 : (s.entries (cacheClockStep s.cursor)).flag &&& B_DIRTY = 0 := by
      rw [hfl1]
      decide
    have hev : cacheEvict s dev = some (cacheClockStep s.cursor,
        (cacheEntryFlushSeq { s with cursor := cacheClockStep s.cursor } dev
          (cacheClockStep s.cursor)).1, dev, []) := by
      unfold cacheEvict
      rw [cacheEvictLoop, if_pos (show (s.entries (cacheClockStep s.cursor)).flag &&&
        B_ALL = 0 by rw [hfl1]; decide)]
      rw [cacheEntryFlushSeq_clean_eq { s with cursor := cacheClockStep s.cursor }
        dev (cacheClockStep s.cursor) hclear1]
    have hGn : cacheGetIdx s S .W_WRITE = none := by
      simp only [cacheGetIdx, hfind]
    set c1 := cacheClockStep s.cursor with hc1
    set s3 := cacheInstall
      (cacheEntryFlushSeq { s with cursor := c1 } dev c1).1 c1 S dev .W_WRITE with hs3
    have hs3cursor : s3.cursor = c1 := by
      rw [hs3]
      rfl
    have hs3self : s3.entries c1 =
        { sec := S, flag := (B_RECENT ||| B_RECENT) ||| B_ALL, data := dev S } := by
      rw [hs3]
      have h1 := cacheInstall_self_W_WRITE
        (cacheEntryFlushSeq { s with cursor := c1 } dev c1).1 c1 S dev
      rw [cacheEntryFlushSeq_entries_same { s with cursor := c1 } dev c1] at h1
      exact h1
    have hs3ne : ∀ j, j ≠ c1 → s3.entries j = s.entries j := by
      intro j hj
      rw [hs3]
      have h1 := cacheInstall_entries_ne
        (cacheEntryFlushSeq { s with cursor := c1 } dev c1).1 c1 S dev .W_WRITE j hj
      have h2 := cacheEntryFlushSeq_entries_ne { s with cursor := c1 } dev c1 j hj
      exact h1.trans h2
    have hflags3 : ∀ j, j ≠ s3.cursor → (s3.entries j).flag = 0 := by
      intro j hj
      rw [hs3cursor] at hj
      rw [hs3ne j hj]
      exact hclean j
    have hsec3 : (s3.entries s3.cursor).sec ≠ S + 1 := by
      rw [hs3cursor, hs3self]
      exact show S ≠ S + 1 by omega
    obtain ⟨s4, rs4, hload, hprot, hclean4⟩ :=
      cacheLoadThread_clean_except_cursor blockSize (S + 1) s3 dev hN hflags3 hsec3
    rw [hs3cursor] at hprot hclean4
    have htry : cacheTryGetIdx blockSize s dev S .W_WRITE =
        some (c1, s4, dev, [] ++ [], S :: rs4) := by
      rw [hs3] at hload
      simp only [cacheTryGetIdx, hGn, hev, hload]
    have hw : cache_write blockSize s dev S P =
        some (cacheWriteData s4 c1 P, dev, [] ++ [], S :: rs4) := by
      simp only [cache_write, htry]
    refine ⟨cacheWriteData s4 c1 P, dev, [] ++ [], S :: rs4, c1, hw, rfl, rfl,
      ?_, ?_, ?_, ?_, ?_⟩
    · rw [cacheWriteData_sec, hprot, hs3self]
    · exact cacheWriteData_data_same s4 c1 P
    · rw [cacheWriteData_flag, hprot, hs3self]
      exact show ((B_RECENT ||| B_RECENT) ||| B_ALL) &&& B_DIRTY ≠ 0 by decide
    · intro j hj
      rw [cacheWriteData_flag]
      exact (hclean4 j hj).1
    · intro j
      by_cases hj : j = c1
      · rw [hj, cacheWriteData_flag, hprot, hs3self]
        exact show ((B_RECENT ||| B_RECENT) ||| B_ALL) < 4 by decide
      · rw [cacheWriteData_flag]
        exact (hclean4 j hj).2
  · -- hit: mark the resident entry dirty and overwrite its buffer
    have hGw : cacheGetIdx s S .W_WRITE = some (i0, cacheMarkHit s i0 .W_WRITE) :=
      cacheGetIdx_hit s S .W_WRITE i0 hfind
    have hseci0 : (s.entries i0).sec = S := by
      have hp := List.find?_some hfind
      exact beq_iff_eq.mp hp
    have htry : cacheTryGetIdx blockSize s dev S .W_WRITE =
        some (i0, cacheMarkHit s i0 .W_WRITE, dev, [], []) := by
      simp only [cacheTryGetIdx, hGw]
    have hw : cache_write blockSize s dev S P =
        some (cacheWriteData (cacheMarkHit s i0 .W_WRITE) i0 P, dev, [], []) := by
      simp only [cache_write, htry]
    refine ⟨cacheWriteData (cacheMarkHit s i0 .W_WRITE) i0 P, dev, [], [], i0, hw,
      rfl, rfl, ?_, ?_, ?_, ?_, ?_⟩
    · rw [cacheWriteData_sec, cacheMarkHit_sec]
      exact hseci0
    · exact cacheWriteData_data_same (cacheMarkHit s i0 .W_WRITE) i0 P
    · rw [cacheWriteData_flag, cacheMarkHit_flag_W_WRITE, hclean i0]
      decide
    · intro j hj
      rw [cacheWriteData_flag, cacheMarkHit_entries_ne s i0 .W_WRITE j hj, hclean j]
      decide
    · intro j
      by_cases hj : j = i0
      · rw [hj, cacheWriteData_flag, cacheMarkHit_flag_W_WRITE, hclean i0]
        decide
      · rw [cacheWriteData_flag, cacheMarkHit_entries_ne s i0 .W_WRITE j hj, hclean j]
        decide

/-- C6.  Executing `cache_write(S, P)` followed by `cache_flush()` with no
intervening operations, on a cache with at least two slots and no pending
dirty data (every flag `B_NOFLAG`, as after `cache_init`): the write
succeeds, the flush leaves the device holding exactly `P` at sector `S`, a
cache entry resident for `S` exists afterwards, and every entry's dirty flag
(in particular that of the entry resident for `S`) is false. -/
theorem cache_write_then_flush_durable {Block : Type} {N : Nat} (blockSize S : Nat)
    (P : Block) (s : SeqState Block N) (dev : Nat → Block) (hN : 2 ≤ N)
    (hclean : ∀ i, (s.entries i).flag = 0) :
    ∃ s1 dev1 ws1 rs1,
      cache_write blockSize s dev S P = some (s1, dev1, ws1, rs1) ∧
      ((cache_flush s1 dev1).2.1) S = P ∧
      (∃ i, (((cache_flush s1 dev1).1).entries i).sec = S) ∧
      (∀ i, (((cache_flush s1 dev1).1).entries i).flag &&& B_DIRTY = 0) := by
  obtain ⟨s1, dev1, ws1, rs1, k, hw, _, _, hsec, hdata, hdirty, hothers, hf4⟩ :=
    cache_write_clean blockSize S P s dev hN hclean
  refine ⟨s1, dev1, ws1, rs1, hw, ?_, ⟨k, ?_⟩, ?_⟩
  · exact cacheFlushFold_writes_target S P (List.finRange N) (s1, dev1, []) k
      (List.mem_finRange k) hsec hdata hdirty (fun j hj _ => hothers j hj) hf4
  · exact (cacheFlushFold_sec (List.finRange N) (s1, dev1, []) k).trans hsec
  · intro i
    exact cache_flush_clears_dirty s1 dev1 hf4 i

/-- Witness for C6: sector 3, block value 77, on the freshly initialized
2-slot cache over a zeroed 8-sector device. -/
theorem cache_write_then_flush_durable_witness :
    ∃ s1 dev1 ws1 rs1,
      cache_write 8 (cache_init (show 0 < 2 by decide) (0 : Nat)) (fun _ => 0) 3 77 =
        some (s1, dev1, ws1, rs1) ∧
      ((cache_flush s1 dev1).2.1) 3 = 77 ∧
      (∃ i, (((cache_flush s1 dev1).1).entries i).sec = 3) ∧
      (∀ i, (((cache_flush s1 dev1).1).entries i).flag &&& B_DIRTY = 0) :=
  cache_write_then_flush_durable 8 3 77 (cache_init (show 0 < 2 by decide) (0 : Nat))
    (fun _ => 0) (by decide) (fun _ => rfl)

end PintosCache
